import Mathlib

/-!
# VulkanRenderer: resource-lifecycle layer

A shallow embedding of `Buffer.h`, `ImageView.h`, `SwapChain.h`, `Texture.h`
and `Model.h`, and the properties of the selection functions, of the
swap-chain life cycle, of the mip-level count and of the vertex
de-duplication.

Machine integers are natural numbers; where the source does 32-bit unsigned
arithmetic the reduction modulo `2 ^ 32` is written out.  Functions that can
throw return `Except String _`, the string being the message of the
`std::runtime_error`.
-/

namespace VulkanRenderer

/-! ## Vulkan value types used by the sources -/

/-- Number of values of a 32-bit unsigned integer. -/
def UINT32_SIZE : Nat := 4294967296

/-- Largest 32-bit unsigned integer, `std::numeric_limits<unsigned int>::max()`. -/
def UINT32_MAX : Nat := 4294967295

/-- Result code of a successful Vulkan call. -/
def VK_SUCCESS : Nat := 0

/-- One entry of the device memory-type table (`VkMemoryType`). -/
structure VkMemoryType where
  propertyFlags : Nat
  heapIndex : Nat
  deriving DecidableEq, Repr

/-- The device memory-type table (`VkPhysicalDeviceMemoryProperties`): the
first `memoryTypeCount` entries of `memoryTypes` are meaningful. -/
structure VkPhysicalDeviceMemoryProperties where
  memoryTypeCount : Nat
  memoryTypes : List VkMemoryType
  deriving DecidableEq, Repr

/-- Capacity of the `memoryTypes` array (`VK_MAX_MEMORY_TYPES`). -/
def VK_MAX_MEMORY_TYPES : Nat := 32

/-! ## Buffer.h -/

namespace Buffer

/-- The value of `typeFilter & (1 << i)`: `1 << i` is computed as an `int` and
converted to `unsigned int` for the conjunction. -/
def filterBit (typeFilter i : Nat) : Nat :=
  typeFilter &&& ((1 <<< i) % UINT32_SIZE)

/-- The value of `memProperties.memoryTypes[i].propertyFlags`. -/
def propertyFlagsAt (memProperties : VkPhysicalDeviceMemoryProperties) (i : Nat) : Nat :=
  (memProperties.memoryTypes.getD i ⟨0, 0⟩).propertyFlags

/-- The condition of the `if` in the loop body of `findMemoryType`. -/
def memoryTypeMatches (typeFilter properties : Nat)
    (memProperties : VkPhysicalDeviceMemoryProperties) (i : Nat) : Bool :=
  filterBit typeFilter i != 0 && (propertyFlagsAt memProperties i &&& properties) == properties

/-- The loop of `findMemoryType`, entered at index `i` with `remaining`
indices left below `memoryTypeCount`. -/
def findMemoryTypeFrom (typeFilter properties : Nat)
    (memProperties : VkPhysicalDeviceMemoryProperties) : Nat → Nat → Except String Nat
  | 0, _ => .error "failed to find suitable memory type"
  | remaining + 1, i =>
    if memoryTypeMatches typeFilter properties memProperties i then .ok i
    else findMemoryTypeFrom typeFilter properties memProperties remaining (i + 1)

/-- `Buffer::findMemoryType`; the table is what
`vkGetPhysicalDeviceMemoryProperties` reports for the physical device. -/
def findMemoryType (typeFilter properties : Nat)
    (memProperties : VkPhysicalDeviceMemoryProperties) : Except String Nat :=
  findMemoryTypeFrom typeFilter properties memProperties memProperties.memoryTypeCount 0

/-- Index `i` is suitable: bit `i` of the filter is set and the flags of
memory type `i` include every required property. -/
def Suitable (typeFilter properties : Nat)
    (memProperties : VkPhysicalDeviceMemoryProperties) (i : Nat) : Prop :=
  typeFilter.testBit i = true ∧ propertyFlagsAt memProperties i &&& properties = properties

end Buffer

/-! ## Values of the Vulkan enumerations and flag bits the sources name -/

def VK_NULL_HANDLE : Nat := 0
def VK_FORMAT_B8G8R8A8_SRGB : Nat := 50
def VK_COLOR_SPACE_SRGB_NONLINEAR_KHR : Nat := 0
def VK_PRESENT_MODE_MAILBOX_KHR : Nat := 1
def VK_PRESENT_MODE_FIFO_KHR : Nat := 2
def VK_IMAGE_TILING_OPTIMAL : Nat := 0
def VK_IMAGE_TILING_LINEAR : Nat := 1
def VK_FORMAT_D32_SFLOAT : Nat := 126
def VK_FORMAT_D24_UNORM_S8_UINT : Nat := 129
def VK_FORMAT_D32_SFLOAT_S8_UINT : Nat := 130
def VK_FORMAT_FEATURE_DEPTH_STENCIL_ATTACHMENT_BIT : Nat := 512
def VK_IMAGE_ASPECT_COLOR_BIT : Nat := 1
def VK_IMAGE_ASPECT_DEPTH_BIT : Nat := 2
def VK_IMAGE_USAGE_COLOR_ATTACHMENT_BIT : Nat := 16
def VK_IMAGE_USAGE_DEPTH_STENCIL_ATTACHMENT_BIT : Nat := 32
def VK_IMAGE_USAGE_TRANSIENT_ATTACHMENT_BIT : Nat := 64
def VK_MEMORY_PROPERTY_DEVICE_LOCAL_BIT : Nat := 1
def VK_SHARING_MODE_EXCLUSIVE : Nat := 0
def VK_SHARING_MODE_CONCURRENT : Nat := 1
def VK_COMPOSITE_ALPHA_OPAQUE_BIT_KHR : Nat := 1
def VK_SAMPLE_COUNT_1_BIT : Nat := 1

/-- Width and height in pixels (`VkExtent2D`), both 32-bit unsigned. -/
structure VkExtent2D where
  width : Nat
  height : Nat
  deriving DecidableEq, Repr

/-- The fields of `VkSurfaceCapabilitiesKHR` the sources read. -/
structure VkSurfaceCapabilitiesKHR where
  minImageCount : Nat
  maxImageCount : Nat
  currentExtent : VkExtent2D
  minImageExtent : VkExtent2D
  maxImageExtent : VkExtent2D
  currentTransform : Nat
  deriving DecidableEq, Repr

/-- A supported surface format (`VkSurfaceFormatKHR`). -/
structure VkSurfaceFormatKHR where
  format : Nat
  colorSpace : Nat
  deriving DecidableEq, Repr

/-- Feature flags of a format (`VkFormatProperties`). -/
structure VkFormatProperties where
  linearTilingFeatures : Nat
  optimalTilingFeatures : Nat
  bufferFeatures : Nat
  deriving DecidableEq, Repr

/-- The fields `createSwapChain` writes into `VkSwapchainCreateInfoKHR`. -/
structure VkSwapchainCreateInfoKHR where
  minImageCount : Nat
  imageFormat : Nat
  imageColorSpace : Nat
  imageExtent : VkExtent2D
  imageArrayLayers : Nat
  imageUsage : Nat
  imageSharingMode : Nat
  queueFamilyIndexCount : Nat
  queueFamilyIndices : List Nat
  preTransform : Nat
  compositeAlpha : Nat
  presentMode : Nat
  clipped : Bool
  oldSwapchain : Nat
  deriving DecidableEq, Repr

/-! ## The platform and the device call trace -/

/-- What the external collaborators report during one call into this layer:
the physical device, the surface, the window and the Vulkan implementation. -/
structure Platform where
  /-- Result of `vkGetPhysicalDeviceMemoryProperties`. -/
  memProperties : VkPhysicalDeviceMemoryProperties
  /-- Result of `vkGetPhysicalDeviceFormatProperties` for a format. -/
  formatProperties : Nat → VkFormatProperties
  /-- Result of `Device::getMaxUsableSampleCount`. -/
  maxUsableSampleCount : Nat
  /-- Field `capabilities` of `Device::querySwapChainSupport`. -/
  capabilities : VkSurfaceCapabilitiesKHR
  /-- Field `formats` of `Device::querySwapChainSupport`. -/
  formats : List VkSurfaceFormatKHR
  /-- Field `presentModes` of `Device::querySwapChainSupport`. -/
  presentModes : List Nat
  /-- Field `graphicsFamily` of `QueueFamily::findQueueFamilies`. -/
  graphicsFamily : Option Nat
  /-- Field `presentFamily` of `QueueFamily::findQueueFamilies`. -/
  presentFamily : Option Nat
  /-- What the `k`-th call of `glfwGetFramebufferSize` reports. -/
  framebufferSize : Nat → Int × Int
  /-- Result code of the object-creating call that would hand out handle `k`. -/
  vkResult : Nat → Nat
  /-- Number of images the implementation creates for a chain requested with
  the given `minImageCount`, as reported by `vkGetSwapchainImagesKHR`. -/
  swapchainImageCount : Nat → Nat
  /-- Field `memoryTypeBits` of the memory requirements of an image. -/
  memoryTypeBits : Nat → Nat

/-- The device calls that create, destroy or wait for objects. -/
inductive VkCall where
  | vkDeviceWaitIdle
  | vkCreateSwapchainKHR (createInfo : VkSwapchainCreateInfoKHR) (swapChain : Nat)
  | vkCreateImageView (image format aspectFlags mipLevels imageView : Nat)
  | vkCreateImage (width height mipLevels numSamples format tiling usage image : Nat)
  | vkAllocateMemory (memory : Nat)
  | vkBindImageMemory (image memory : Nat)
  | vkCreateFramebuffer (renderPass : Nat) (attachments : List Nat)
      (width height layers framebuffer : Nat)
  | vkDestroyFramebuffer (framebuffer : Nat)
  | vkDestroyImageView (imageView : Nat)
  | vkDestroyImage (image : Nat)
  | vkFreeMemory (memory : Nat)
  | vkDestroySwapchainKHR (swapChain : Nat)
  deriving DecidableEq, Repr

/-- The state outside the `SwapChain` object: the next unused handle, the
number of `glfwGetFramebufferSize` calls made so far, and the device calls
issued so far, oldest first. -/
structure World where
  nextHandle : Nat
  polls : Nat
  calls : List VkCall
  deriving DecidableEq, Repr

/-- Record one device call. -/
def World.emit (w : World) (c : VkCall) : World :=
  { w with calls := w.calls ++ [c] }

/-- Hand out `n` unused handles. -/
def World.take (w : World) (n : Nat) : World :=
  { w with nextHandle := w.nextHandle + n }

/-- `glfwGetFramebufferSize(window, &width, &height)`. -/
def glfwGetFramebufferSize (p : Platform) (w : World) : (Int × Int) × World :=
  (p.framebufferSize w.polls, { w with polls := w.polls + 1 })

/-- `std::vector::resize(n)`: keep the first `n` elements, pad with `d`. -/
def resize {α : Type} (v : List α) (n : Nat) (d : α) : List α :=
  v.take n ++ List.replicate (n - v.length) d

/-- Write `data` over the front of the buffer `v`, as an API call filling
`v.data()` does. -/
def overwrite {α : Type} (v data : List α) : List α :=
  (data ++ v.drop data.length).take v.length

/-! ## ImageView.h -/

namespace ImageView

/-- `ImageView::createImageView`. -/
def createImageView (imageObject format aspectFlags mipLevels : Nat) (p : Platform)
    (w : World) : Except String (Nat × World) :=
  if p.vkResult w.nextHandle ≠ VK_SUCCESS then
    .error "failed to create texture image view"
  else
    .ok (w.nextHandle,
      (w.take 1).emit (.vkCreateImageView imageObject format aspectFlags mipLevels w.nextHandle))

end ImageView

/-! ## Image.h -/

/-- Modelled from the spec: `Image.h` is not among the sources.  A GpuImage is
a device image, its backing memory and a view that is null until it is
created, with the dimensions, mip-level count, sample count and format it was
created with. -/
structure Image where
  image : Nat
  imageMemory : Nat
  imageView : Nat
  width : Nat
  height : Nat
  mipLevels : Nat
  numSamples : Nat
  format : Nat
  deriving DecidableEq, Repr

namespace Image

/-- Modelled from the spec: the constructor of `Image` (`Image.h` is not among
the sources).  It creates the image object, resolves a memory type with
`Buffer::findMemoryType` from the memory requirements of the image, allocates
the memory and binds it; it fails with `ObjectCreationFailed` or
`MemoryAllocationFailed` on the respective call. -/
def create (width height mipLevels numSamples format tiling usage properties : Nat)
    (p : Platform) (w : World) : Except String (Image × World) :=
  if p.vkResult w.nextHandle ≠ VK_SUCCESS then .error "ObjectCreationFailed"
  else
    let image := w.nextHandle
    let w1 := (w.take 1).emit
      (.vkCreateImage width height mipLevels numSamples format tiling usage image)
    match Buffer.findMemoryType (p.memoryTypeBits image) properties p.memProperties with
    | .error e => .error e
    | .ok _ =>
      if p.vkResult w1.nextHandle ≠ VK_SUCCESS then .error "MemoryAllocationFailed"
      else
        let memory := w1.nextHandle
        let w2 := ((w1.take 1).emit (.vkAllocateMemory memory)).emit
          (.vkBindImageMemory image memory)
        .ok (⟨image, memory, VK_NULL_HANDLE, width, height, mipLevels, numSamples, format⟩, w2)

/-- Modelled from the spec: `Image::createImageView` (`Image.h` is not among
the sources) wraps the image in a view spanning `mipLevels` levels. -/
def createImageView (img : Image) (aspectFlags mipLevels : Nat) (p : Platform) (w : World) :
    Except String (Image × World) :=
  match ImageView.createImageView img.image img.format aspectFlags mipLevels p w with
  | .error e => .error e
  | .ok (view, w1) => .ok ({ img with imageView := view }, w1)

/-- Modelled from the spec: `Image::destroyImage` (`Image.h` is not among the
sources) destroys the view if one was created, then the image, then frees the
memory. -/
def destroyImage (img : Image) (w : World) : World :=
  let w1 := if img.imageView ≠ VK_NULL_HANDLE then w.emit (.vkDestroyImageView img.imageView)
    else w
  (w1.emit (.vkDestroyImage img.image)).emit (.vkFreeMemory img.imageMemory)

end Image

/-! ## SwapChain.h -/

/-- The data members of `class SwapChain`; a `std::unique_ptr` that holds
nothing is `none`. -/
structure SwapChain where
  swapChain : Nat
  swapChainImages : List Nat
  swapChainImageFormat : Nat
  swapChainExtent : VkExtent2D
  swapChainImageViews : List Nat
  swapChainFramebuffers : List Nat
  colorImage : Option Image
  depthImage : Option Image
  msaaSamples : Nat
  deriving DecidableEq, Repr

namespace SwapChain

/-- The members as they are when the constructor body starts. -/
def fresh : SwapChain :=
  ⟨VK_NULL_HANDLE, [], 0, ⟨0, 0⟩, [], [], none, none, VK_SAMPLE_COUNT_1_BIT⟩

/-- The test of the `if` in the loop of `chooseSwapSurfaceFormat`. -/
def isPreferredFormat (availableFormat : VkSurfaceFormatKHR) : Bool :=
  availableFormat.format == VK_FORMAT_B8G8R8A8_SRGB &&
    availableFormat.colorSpace == VK_COLOR_SPACE_SRGB_NONLINEAR_KHR

/-- The loop of `chooseSwapSurfaceFormat`; `none` when it falls through. -/
def chooseSwapSurfaceFormatLoop : List VkSurfaceFormatKHR → Option VkSurfaceFormatKHR
  | [] => none
  | availableFormat :: rest =>
    if isPreferredFormat availableFormat then some availableFormat
    else chooseSwapSurfaceFormatLoop rest

/-- `SwapChain::chooseSwapSurfaceFormat`; `none` stands for the undefined
`availableFormats[0]` of an empty vector. -/
def chooseSwapSurfaceFormat (availableFormats : List VkSurfaceFormatKHR) :
    Option VkSurfaceFormatKHR :=
  match chooseSwapSurfaceFormatLoop availableFormats with
  | some availableFormat => some availableFormat
  | none => availableFormats[0]?

/-- `SwapChain::chooseSwapPresentMode`. -/
def chooseSwapPresentMode : List Nat → Nat
  | [] => VK_PRESENT_MODE_FIFO_KHR
  | availablePresentMode :: rest =>
    if availablePresentMode == VK_PRESENT_MODE_MAILBOX_KHR then availablePresentMode
    else chooseSwapPresentMode rest

/-- `static_cast<unsigned int>` of an `int`. -/
def toUnsigned (x : Int) : Nat :=
  (x % (UINT32_SIZE : Int)).toNat

/-- `std::clamp(v, lo, hi)`: `lo` if `v < lo`, `hi` if `hi < v`, otherwise `v`;
the standard requires `lo ≤ hi`. -/
def clamp (v lo hi : Nat) : Nat :=
  if v < lo then lo else if hi < v then hi else v

/-- `SwapChain::chooseSwapExtent`. -/
def chooseSwapExtent (capabilities : VkSurfaceCapabilitiesKHR) (p : Platform) (w : World) :
    VkExtent2D × World :=
  if capabilities.currentExtent.width ≠ UINT32_MAX then
    (capabilities.currentExtent, w)
  else
    let (size, w1) := glfwGetFramebufferSize p w
    let actualExtent : VkExtent2D := ⟨toUnsigned size.1, toUnsigned size.2⟩
    (⟨clamp actualExtent.width capabilities.minImageExtent.width
        capabilities.maxImageExtent.width,
      clamp actualExtent.height capabilities.minImageExtent.height
        capabilities.maxImageExtent.height⟩, w1)

/-- The value `createSwapChain` stores in `createInfo.minImageCount`
(`imageCount` is an `unsigned int`). -/
def requestedImageCount (capabilities : VkSurfaceCapabilitiesKHR) : Nat :=
  let imageCount := (capabilities.minImageCount + 1) % UINT32_SIZE
  if capabilities.maxImageCount > 0 ∧ imageCount > capabilities.maxImageCount then
    capabilities.maxImageCount
  else imageCount

/-- `SwapChain::findSupportedFormat`. -/
def findSupportedFormat (p : Platform) : List Nat → Nat → Nat → Except String Nat
  | [], _, _ => .error "failed to find supported format"
  | format :: rest, tiling, features =>
    let props := p.formatProperties format
    if tiling == VK_IMAGE_TILING_LINEAR ∧
        (props.linearTilingFeatures &&& features) == features then .ok format
    else if tiling == VK_IMAGE_TILING_OPTIMAL ∧
        (props.optimalTilingFeatures &&& features) == features then .ok format
    else findSupportedFormat p rest tiling features

/-- `SwapChain::findDepthFormat`. -/
def findDepthFormat (p : Platform) : Except String Nat :=
  findSupportedFormat p
    [VK_FORMAT_D32_SFLOAT, VK_FORMAT_D32_SFLOAT_S8_UINT, VK_FORMAT_D24_UNORM_S8_UINT]
    VK_IMAGE_TILING_OPTIMAL VK_FORMAT_FEATURE_DEPTH_STENCIL_ATTACHMENT_BIT

/-- A candidate format qualifies: the feature flags of the requested tiling
include every required feature. -/
def Qualifies (p : Platform) (tiling features format : Nat) : Prop :=
  (tiling = VK_IMAGE_TILING_LINEAR ∧
    (p.formatProperties format).linearTilingFeatures &&& features = features) ∨
  (tiling = VK_IMAGE_TILING_OPTIMAL ∧
    (p.formatProperties format).optimalTilingFeatures &&& features = features)

/-- The loop of `createImageViews`, entered at index `i` with `remaining`
indices left below `swapChainImages.size()`. -/
def createImageViewsFrom (p : Platform) :
    Nat → Nat → SwapChain → World → Except String (SwapChain × World)
  | 0, _, s, w => .ok (s, w)
  | remaining + 1, i, s, w => do
    let (view, w1) ← ImageView.createImageView (s.swapChainImages.getD i VK_NULL_HANDLE)
      s.swapChainImageFormat VK_IMAGE_ASPECT_COLOR_BIT 1 p w
    createImageViewsFrom p remaining (i + 1)
      { s with swapChainImageViews := s.swapChainImageViews.set i view } w1

/-- `SwapChain::createImageViews`. -/
def createImageViews (p : Platform) (s : SwapChain) (w : World) :
    Except String (SwapChain × World) :=
  let views := resize s.swapChainImageViews s.swapChainImages.length VK_NULL_HANDLE
  let s1 := { s with swapChainImageViews := views }
  createImageViewsFrom p s1.swapChainImages.length 0 s1 w

/-- `SwapChain::createColorResources`. -/
def createColorResources (p : Platform) (s : SwapChain) (w : World) :
    Except String (SwapChain × World) := do
  let colorFormat := s.swapChainImageFormat
  let (img, w1) ← Image.create s.swapChainExtent.width s.swapChainExtent.height 1
    s.msaaSamples colorFormat VK_IMAGE_TILING_OPTIMAL
    (VK_IMAGE_USAGE_TRANSIENT_ATTACHMENT_BIT ||| VK_IMAGE_USAGE_COLOR_ATTACHMENT_BIT)
    VK_MEMORY_PROPERTY_DEVICE_LOCAL_BIT p w
  let (img1, w2) ← img.createImageView VK_IMAGE_ASPECT_COLOR_BIT 1 p w1
  pure ({ s with colorImage := some img1 }, w2)

/-- `SwapChain::createDepthResources`. -/
def createDepthResources (p : Platform) (s : SwapChain) (w : World) :
    Except String (SwapChain × World) := do
  let depthFormat ← findDepthFormat p
  let (img, w1) ← Image.create s.swapChainExtent.width s.swapChainExtent.height 1
    s.msaaSamples depthFormat VK_IMAGE_TILING_OPTIMAL
    VK_IMAGE_USAGE_DEPTH_STENCIL_ATTACHMENT_BIT VK_MEMORY_PROPERTY_DEVICE_LOCAL_BIT p w
  let (img1, w2) ← img.createImageView VK_IMAGE_ASPECT_DEPTH_BIT 1 p w1
  pure ({ s with depthImage := some img1 }, w2)

/-- The `createInfo` that `createSwapChain` fills in. -/
def swapchainCreateInfo (p : Platform) (surfaceFormat : VkSurfaceFormatKHR)
    (presentMode : Nat) (extent : VkExtent2D) (imageCount graphicsFamily presentFamily : Nat) :
    VkSwapchainCreateInfoKHR :=
  { minImageCount := imageCount
    imageFormat := surfaceFormat.format
    imageColorSpace := surfaceFormat.colorSpace
    imageExtent := extent
    imageArrayLayers := 1
    imageUsage := VK_IMAGE_USAGE_COLOR_ATTACHMENT_BIT
    imageSharingMode :=
      if graphicsFamily ≠ presentFamily then VK_SHARING_MODE_CONCURRENT
      else VK_SHARING_MODE_EXCLUSIVE
    queueFamilyIndexCount := if graphicsFamily ≠ presentFamily then 2 else 0
    queueFamilyIndices :=
      if graphicsFamily ≠ presentFamily then [graphicsFamily, presentFamily] else []
    preTransform := p.capabilities.currentTransform
    compositeAlpha := VK_COMPOSITE_ALPHA_OPAQUE_BIT_KHR
    presentMode := presentMode
    clipped := true
    oldSwapchain := VK_NULL_HANDLE }

/-- `SwapChain::createSwapChain`.  The two `vkGetSwapchainImagesKHR` calls
set `imageCount` to the number of images of the chain and fill
`swapChainImages` with their handles. -/
def createSwapChain (p : Platform) (s : SwapChain) (w : World) :
    Except String (SwapChain × World) :=
  let s1 := { s with msaaSamples := p.maxUsableSampleCount }
  match chooseSwapSurfaceFormat p.formats with
  | none => .error "availableFormats[0] of an empty vector"
  | some surfaceFormat =>
    let presentMode := chooseSwapPresentMode p.presentModes
    let (extent, w1) := chooseSwapExtent p.capabilities p w
    let imageCount := requestedImageCount p.capabilities
    match p.graphicsFamily, p.presentFamily with
    | some graphicsFamily, some presentFamily =>
      let createInfo := swapchainCreateInfo p surfaceFormat presentMode extent imageCount
        graphicsFamily presentFamily
      if p.vkResult w1.nextHandle ≠ VK_SUCCESS then .error "failed to create swap chain"
      else do
        let swapChain := w1.nextHandle
        let w2 := (w1.take 1).emit (.vkCreateSwapchainKHR createInfo swapChain)
        let imageCount := p.swapchainImageCount createInfo.minImageCount
        let images := List.range' w2.nextHandle imageCount
        let w3 := w2.take imageCount
        let s2 := { s1 with
          swapChain := swapChain
          swapChainImages :=
            overwrite (resize s1.swapChainImages imageCount VK_NULL_HANDLE) images
          swapChainImageFormat := surfaceFormat.format
          swapChainExtent := extent }
        let (s3, w4) ← createImageViews p s2 w3
        let (s4, w5) ← createColorResources p s3 w4
        createDepthResources p s4 w5
    | _, _ => .error "bad_optional_access"

/-- The constructor `SwapChain::SwapChain`. -/
def construct (p : Platform) (w : World) : Except String (SwapChain × World) :=
  createSwapChain p fresh w

/-- The loop of `createFramebuffers`, entered at index `i` with `remaining`
indices left below `swapChainImageViews.size()`. -/
def createFramebuffersFrom (renderPass : Nat) (p : Platform) :
    Nat → Nat → SwapChain → World → Except String (SwapChain × World)
  | 0, _, s, w => .ok (s, w)
  | remaining + 1, i, s, w =>
    match s.colorImage, s.depthImage with
    | some colorImage, some depthImage =>
      let attachments :=
        [colorImage.imageView, depthImage.imageView, s.swapChainImageViews.getD i VK_NULL_HANDLE]
      if p.vkResult w.nextHandle ≠ VK_SUCCESS then .error "failed to create framebuffer"
      else
        let framebuffer := w.nextHandle
        let w1 := (w.take 1).emit (.vkCreateFramebuffer renderPass attachments
          s.swapChainExtent.width s.swapChainExtent.height 1 framebuffer)
        createFramebuffersFrom renderPass p remaining (i + 1)
          { s with swapChainFramebuffers := s.swapChainFramebuffers.set i framebuffer } w1
    | _, _ => .error "null colorImage or depthImage"

/-- `SwapChain::createFramebuffers`. -/
def createFramebuffers (renderPass : Nat) (p : Platform) (s : SwapChain) (w : World) :
    Except String (SwapChain × World) :=
  let framebuffers := resize s.swapChainFramebuffers s.swapChainImageViews.length VK_NULL_HANDLE
  let s1 := { s with swapChainFramebuffers := framebuffers }
  createFramebuffersFrom renderPass p s1.swapChainImageViews.length 0 s1 w

/-- The first loop of `cleanupSwapChain`, entered at index `i` with
`remaining` indices left below `swapChainFramebuffers.size()`. -/
def destroyFramebuffersFrom (s : SwapChain) : Nat → Nat → World → World
  | 0, _, w => w
  | remaining + 1, i, w =>
    destroyFramebuffersFrom s remaining (i + 1)
      (w.emit (.vkDestroyFramebuffer (s.swapChainFramebuffers.getD i VK_NULL_HANDLE)))

/-- The second loop of `cleanupSwapChain`, entered at index `i` with
`remaining` indices left below `swapChainImageViews.size()`. -/
def destroyImageViewsFrom (s : SwapChain) : Nat → Nat → World → World
  | 0, _, w => w
  | remaining + 1, i, w =>
    destroyImageViewsFrom s remaining (i + 1)
      (w.emit (.vkDestroyImageView (s.swapChainImageViews.getD i VK_NULL_HANDLE)))

/-- `SwapChain::cleanupSwapChain`; the members keep their values. -/
def cleanupSwapChain (s : SwapChain) (w : World) : Except String World :=
  match s.colorImage, s.depthImage with
  | some colorImage, some depthImage =>
    let w1 := colorImage.destroyImage w
    let w2 := depthImage.destroyImage w1
    let w3 := destroyFramebuffersFrom s s.swapChainFramebuffers.length 0 w2
    let w4 := destroyImageViewsFrom s s.swapChainImageViews.length 0 w3
    .ok (w4.emit (.vkDestroySwapchainKHR s.swapChain))
  | _, _ => .error "null colorImage or depthImage"

/-- The `while` loop of `recreateSwapChain`, entered with the last polled
size and running at most `fuel` iterations; the flag tells whether the loop
was left. -/
def waitForWindow (p : Platform) : Nat → Int × Int → World → World × Bool
  | 0, size, w => (w, !(size.1 == 0 || size.2 == 0))
  | fuel + 1, size, w =>
    if size.1 == 0 || size.2 == 0 then
      let (size1, w1) := glfwGetFramebufferSize p w
      waitForWindow p fuel size1 w1
    else (w, true)

/-- `SwapChain::recreateSwapChain`, the wait loop running at most `fuel`
iterations; `none` when the window is still of size zero after that. -/
def recreateSwapChain (fuel : Nat) (p : Platform) (renderPass : Nat) (s : SwapChain)
    (w : World) : Option (Except String (SwapChain × World)) :=
  let (size, w0) := glfwGetFramebufferSize p w
  match waitForWindow p fuel size w0 with
  | (_, false) => none
  | (w1, true) => some (do
    let w2 := w1.emit .vkDeviceWaitIdle
    let w3 ← cleanupSwapChain s w2
    let (s1, w4) ← createSwapChain p s w3
    createFramebuffers renderPass p s1 w4)

end SwapChain

/-! ## Image count of the specification, sample platform, trace vocabulary -/

/-- The target image count in the words of the specification:
`min(minImageCount + 1, maxImageCount)`, where `maxImageCount == 0` means
that there is no upper bound. -/
def targetImageCount (capabilities : VkSurfaceCapabilitiesKHR) : Nat :=
  if capabilities.maxImageCount = 0 then capabilities.minImageCount + 1
  else min (capabilities.minImageCount + 1) capabilities.maxImageCount

/-- A device with two memory types, depth support for the two stencil
formats only, a surface of undefined extent with three formats and three
present modes, and a window of 1920 by 1080 that is minimised at the third
and fourth poll. -/
def samplePlatform : Platform :=
  { memProperties := ⟨2, [⟨2, 0⟩, ⟨1, 0⟩]⟩
    formatProperties := fun format =>
      if format = VK_FORMAT_D32_SFLOAT_S8_UINT ∨ format = VK_FORMAT_D24_UNORM_S8_UINT then
        ⟨0, 512, 0⟩
      else ⟨0, 0, 0⟩
    maxUsableSampleCount := 4
    capabilities := ⟨2, 3, ⟨4294967295, 4294967295⟩, ⟨1, 1⟩, ⟨4096, 4096⟩, 1⟩
    formats := [⟨44, 0⟩, ⟨37, 0⟩, ⟨43, 0⟩]
    presentModes := [2, 0, 1]
    graphicsFamily := some 0
    presentFamily := some 0
    framebufferSize := fun k => if k = 2 ∨ k = 3 then (0, 0) else (1920, 1080)
    vkResult := fun _ => VK_SUCCESS
    swapchainImageCount := fun n => n
    memoryTypeBits := fun _ => 3 }

/-- The world before the first call: handle 1 is the next to hand out. -/
def World.initial : World := ⟨1, 0, []⟩

/-- A surface format is the preferred one: 8-bit BGRA sRGB with the
sRGB-nonlinear colour space. -/
def SwapChain.Preferred (availableFormat : VkSurfaceFormatKHR) : Prop :=
  availableFormat.format = VK_FORMAT_B8G8R8A8_SRGB ∧
    availableFormat.colorSpace = VK_COLOR_SPACE_SRGB_NONLINEAR_KHR

/-- The device calls of `Image::destroyImage`, in the order they are issued. -/
def Image.destroyCalls (img : Image) : List VkCall :=
  (if img.imageView ≠ VK_NULL_HANDLE then [VkCall.vkDestroyImageView img.imageView] else []) ++
    [VkCall.vkDestroyImage img.image, VkCall.vkFreeMemory img.imageMemory]

/-- The swap chain that the constructor followed by `createFramebuffers`
builds on the sample platform, starting from `World.initial`. -/
def sampleSwapChain : SwapChain :=
  { swapChain := 1
    swapChainImages := [2, 3, 4]
    swapChainImageFormat := 44
    swapChainExtent := ⟨1920, 1080⟩
    swapChainImageViews := [5, 6, 7]
    swapChainFramebuffers := [14, 15, 16]
    colorImage := some ⟨8, 9, 10, 1920, 1080, 1, 4, 44⟩
    depthImage := some ⟨11, 12, 13, 1920, 1080, 1, 4, 130⟩
    msaaSamples := 4 }

/-- The swap chain that the constructor builds on the sample platform,
starting from `World.initial`. -/
def sampleConstructed : SwapChain :=
  { sampleSwapChain with swapChainFramebuffers := [] }

/-- The image count negotiated with the platform: the number of images
`vkGetSwapchainImagesKHR` reports for the chain created with the requested
`minImageCount`, which is the final value of `imageCount` in
`createSwapChain`. -/
def negotiatedImageCount (p : Platform) : Nat :=
  p.swapchainImageCount (SwapChain.requestedImageCount p.capabilities)

/-- The states of a `SwapChain` object reachable through its constructor,
`createFramebuffers` and `recreateSwapChain`, each call running on any
platform and in any world and returning normally.  The first index is the
image count negotiated by the last creation of the chain, the second tells
whether `createFramebuffers` or `recreateSwapChain` has run. -/
inductive Reachable : Nat → Bool → SwapChain → Prop where
  | construct (p : Platform) (w : World) (s : SwapChain) (w1 : World) :
      SwapChain.construct p w = .ok (s, w1) → Reachable (negotiatedImageCount p) false s
  | createFramebuffers (n : Nat) (b : Bool) (renderPass : Nat) (p : Platform)
      (s : SwapChain) (w : World) (s1 : SwapChain) (w1 : World) :
      Reachable n b s → SwapChain.createFramebuffers renderPass p s w = .ok (s1, w1) →
      Reachable n true s1
  | recreateSwapChain (n : Nat) (b : Bool) (fuel : Nat) (p : Platform) (renderPass : Nat)
      (s : SwapChain) (w : World) (s1 : SwapChain) (w1 : World) :
      Reachable n b s →
      SwapChain.recreateSwapChain fuel p renderPass s w = some (.ok (s1, w1)) →
      Reachable (negotiatedImageCount p) true s1

/-- The device calls that build an attachment: those of the constructor of
`Image` followed by the one of `Image::createImageView`. -/
def Image.createCalls (img : Image) (tiling usage aspectFlags viewMipLevels : Nat) :
    List VkCall :=
  [VkCall.vkCreateImage img.width img.height img.mipLevels img.numSamples img.format tiling
      usage img.image,
    VkCall.vkAllocateMemory img.imageMemory,
    VkCall.vkBindImageMemory img.image img.imageMemory,
    VkCall.vkCreateImageView img.image img.format aspectFlags viewMipLevels img.imageView]

/-- No call of this layer throws on the platform: every object-creating call
succeeds, the surface supports a format, both queue families exist, the
device supports one of the depth formats and has a device-local memory type
for every image. -/
def Cooperative (p : Platform) : Prop :=
  (∀ k, p.vkResult k = VK_SUCCESS) ∧
  p.formats ≠ [] ∧
  (∃ graphicsFamily, p.graphicsFamily = some graphicsFamily) ∧
  (∃ presentFamily, p.presentFamily = some presentFamily) ∧
  (∃ depthFormat, SwapChain.findDepthFormat p = .ok depthFormat) ∧
  (∀ image, ∃ i, Buffer.findMemoryType (p.memoryTypeBits image)
    VK_MEMORY_PROPERTY_DEVICE_LOCAL_BIT p.memProperties = .ok i)

/-- The polled window size has a zero width or a zero height. -/
def Minimised (size : Int × Int) : Prop :=
  size.1 = 0 ∨ size.2 = 0

/-- The sample platform with a window that stays at 1920 by 1080. -/
def stablePlatform : Platform :=
  { samplePlatform with framebufferSize := fun _ => (1920, 1080) }

/-! ## Texture.h -/

def VK_FORMAT_R8G8B8A8_SRGB : Nat := 43
def VK_IMAGE_LAYOUT_UNDEFINED : Nat := 0
def VK_IMAGE_LAYOUT_TRANSFER_DST_OPTIMAL : Nat := 7
def VK_IMAGE_USAGE_TRANSFER_SRC_BIT : Nat := 1
def VK_IMAGE_USAGE_TRANSFER_DST_BIT : Nat := 2
def VK_IMAGE_USAGE_SAMPLED_BIT : Nat := 4
def VK_BUFFER_USAGE_TRANSFER_SRC_BIT : Nat := 1
def VK_MEMORY_PROPERTY_HOST_VISIBLE_BIT : Nat := 2
def VK_MEMORY_PROPERTY_HOST_COHERENT_BIT : Nat := 4

/-- The calls the constructor of `Texture` makes on `Buffer`, on its `Image`
and on the device, with the values of the arguments it passes. -/
inductive TextureCall where
  | createBuffer (size : Nat) (usage properties : Nat)
  | copyPixelsToMemory (size : Nat)
  | stbi_image_free
  | makeImage (width height : Int)
      (mipLevels numSamples format tiling usage properties : Nat)
  | transitionImageLayout (format oldLayout newLayout mipLevels : Nat)
  | copyBufferToImage (width height : Nat)
  | vkDestroyBuffer
  | vkFreeMemory
  | generateMipMaps (format : Nat) (texWidth texHeight : Int) (mipLevels : Nat)
  | createImageView (aspectFlags mipLevels : Nat)
  | createTextureSampler (mipLevels : Nat)
  deriving DecidableEq, Repr

/-- The data member `mipLevels` of `class Texture`. -/
structure Texture where
  mipLevels : Nat
  deriving DecidableEq, Repr

namespace Texture

/-- The value of `std::floor(std::log2(x))` for an `int` `x ≥ 1`: `x` converts
to `double` exactly and the logarithm of an `int` is an integer or at least
`2 ^ (-31)` away from one, so the floor is the integer logarithm. -/
def floorLog2 (x : Int) : Nat :=
  Nat.log2 x.toNat

/-- The value the constructor stores in `mipLevels` (a `uint32_t`). -/
def computeMipLevels (texWidth texHeight : Int) : Nat :=
  (floorLog2 (max texWidth texHeight) % UINT32_SIZE + 1) % UINT32_SIZE

/-- The value an `int` operation leaves when its exact result is `x`: `x`
itself when it is an `int`, and otherwise the two's complement wrap of `x`
(the overflow is undefined; the wrap is what the multiplication instruction
leaves). -/
def wrapInt (x : Int) : Int :=
  (x + 2147483648) % 4294967296 - 2147483648

/-- The value of `texWidth * texHeight * 4`, computed in `int` and converted
to `VkDeviceSize` (a `uint64_t`). -/
def imageSize (texWidth texHeight : Int) : Nat :=
  (wrapInt (wrapInt (texWidth * texHeight) * 4) % 18446744073709551616).toNat

/-- The constructor `Texture::Texture`, given what `stbi_load` reports: the
width and height of the image and whether it returned pixels.  The result is
the object and the calls made, in order, none of them throwing. -/
def construct (texWidth texHeight : Int) (pixels : Bool) :
    Except String (Texture × List TextureCall) :=
  let imageSize := imageSize texWidth texHeight
  let mipLevels := computeMipLevels texWidth texHeight
  if !pixels then .error "failed to load texture image!"
  else
    .ok (⟨mipLevels⟩,
      [.createBuffer imageSize VK_BUFFER_USAGE_TRANSFER_SRC_BIT
          (VK_MEMORY_PROPERTY_HOST_VISIBLE_BIT ||| VK_MEMORY_PROPERTY_HOST_COHERENT_BIT),
        .copyPixelsToMemory imageSize,
        .stbi_image_free,
        .makeImage texWidth texHeight mipLevels VK_SAMPLE_COUNT_1_BIT VK_FORMAT_R8G8B8A8_SRGB
          VK_IMAGE_TILING_OPTIMAL
          (VK_IMAGE_USAGE_TRANSFER_SRC_BIT ||| VK_IMAGE_USAGE_TRANSFER_DST_BIT |||
            VK_IMAGE_USAGE_SAMPLED_BIT)
          VK_MEMORY_PROPERTY_DEVICE_LOCAL_BIT,
        .transitionImageLayout VK_FORMAT_R8G8B8A8_SRGB VK_IMAGE_LAYOUT_UNDEFINED
          VK_IMAGE_LAYOUT_TRANSFER_DST_OPTIMAL mipLevels,
        .copyBufferToImage (SwapChain.toUnsigned texWidth) (SwapChain.toUnsigned texHeight),
        .vkDestroyBuffer,
        .vkFreeMemory,
        .generateMipMaps VK_FORMAT_R8G8B8A8_SRGB texWidth texHeight mipLevels,
        .createImageView VK_IMAGE_ASPECT_COLOR_BIT mipLevels,
        .createTextureSampler mipLevels])

/-- The mip-level count a call carries, if it has one. -/
def mipCount : TextureCall → Option Nat
  | .makeImage _ _ mipLevels _ _ _ _ _ => some mipLevels
  | .transitionImageLayout _ _ _ mipLevels => some mipLevels
  | .generateMipMaps _ _ _ mipLevels => some mipLevels
  | .createImageView _ mipLevels => some mipLevels
  | .createTextureSampler mipLevels => some mipLevels
  | _ => none

end Texture

/-! ## Model.h -/

/-- Smallest value of an `int`. -/
def INT_MIN : Int := -2147483648

/-- Largest value of an `int`. -/
def INT_MAX : Int := 2147483647

/-- One entry of `shape.mesh.indices` (`tinyobj::index_t`); each member is an
`int`. -/
structure tinyobj.index_t where
  vertex_index : Int
  normal_index : Int
  texcoord_index : Int
  deriving DecidableEq, Repr

/-- The arrays of `tinyobj::attrib_t` the constructor reads; `F` stands for
`float`, of which the loop uses the constant `1.0f`, the subtraction in
`1.0f - v` and the comparison inside `operator==` of `Vertex`, and which it
otherwise only copies. -/
structure tinyobj.attrib_t (F : Type) where
  vertices : List F
  normals : List F
  texcoords : List F

/-- Modelled from the spec: `Vertex.h` is not among the sources.  A vertex
has the four members the constructor of `Model` assigns; `F` stands for
`float`. -/
structure Vertex (F : Type) where
  pos : F × F × F
  normal : F × F × F
  texCoord : F × F
  color : F × F × F
  deriving DecidableEq, Repr

namespace Model

/-- The number is a value of type `int`. -/
def isInt (x : Int) : Bool :=
  decide (INT_MIN ≤ x) && decide (x ≤ INT_MAX)

/-- The value of `stride * index + offset` computed in `int`; `none` when
`index` is not an `int` or the product or the sum overflows, which is
undefined. -/
def intIndex (stride index offset : Int) : Option Int :=
  if isInt index && isInt (stride * index) && isInt (stride * index + offset) then
    some (stride * index + offset)
  else none

/-- The value of `a[i]` for a `std::vector<float>` and an `int` index, which
is converted to `size_t`; `none` when the read is outside the vector, which is
undefined. -/
def readAt {F : Type} (a : List F) (i : Int) : Option F :=
  if i < 0 then none else a[i.toNat]?

/-- The component `a[stride * index + offset]` of an attribute array. -/
def component {F : Type} (a : List F) (stride index offset : Int) : Option F :=
  match intIndex stride index offset with
  | some i => readAt a i
  | none => none

/-- The vertex the loop body builds from one index entry; `none` when one of
its reads is undefined. -/
def buildVertex {F : Type} [One F] [Sub F] (attrib : tinyobj.attrib_t F)
    (index : tinyobj.index_t) : Option (Vertex F) := do
  let x ← component attrib.vertices 3 index.vertex_index 0
  let y ← component attrib.vertices 3 index.vertex_index 1
  let z ← component attrib.vertices 3 index.vertex_index 2
  let nx ← component attrib.normals 3 index.normal_index 0
  let ny ← component attrib.normals 3 index.normal_index 1
  let nz ← component attrib.normals 3 index.normal_index 2
  let u ← component attrib.texcoords 2 index.texcoord_index 0
  let v ← component attrib.texcoords 2 index.texcoord_index 1
  pure { pos := (x, y, z), normal := (nx, ny, nz), texCoord := (u, 1 - v), color := (1, 1, 1) }

/-- `uniqueVertices.count(key)` of a `std::unordered_map` held as the list of
its entries; `eq` is the key equality. -/
def mapCount {K : Type} (eq : K → K → Bool) (m : List (K × Nat)) (key : K) : Nat :=
  if (m.find? (fun e => eq e.1 key)).isSome then 1 else 0

/-- The assignment `uniqueVertices[key] = value`: a new entry when the key is
absent, the value of the entry replaced when it is present. -/
def mapAssign {K : Type} (eq : K → K → Bool) (m : List (K × Nat)) (key : K) (value : Nat) :
    List (K × Nat) :=
  if mapCount eq m key = 0 then m ++ [(key, value)]
  else m.map (fun e => if eq e.1 key then (e.1, value) else e)

/-- The read `uniqueVertices[key]`: the value of the entry, or a new entry
with value 0 when the key is absent. -/
def mapRead {K : Type} (eq : K → K → Bool) (m : List (K × Nat)) (key : K) :
    Nat × List (K × Nat) :=
  match m.find? (fun e => eq e.1 key) with
  | some e => (e.2, m)
  | none => (0, m ++ [(key, 0)])

/-- The local `uniqueVertices` and the members `vertices` and `indices`. -/
structure State (F : Type) where
  uniqueVertices : List (Vertex F × Nat)
  vertices : List (Vertex F)
  indices : List Nat

/-- The second half of the body of the inner loop, from the test
`uniqueVertices.count(vertex) == 0` on; `eq` is `operator==` of `Vertex`. -/
def loadVertex {F : Type} (eq : Vertex F → Vertex F → Bool) (st : State F)
    (vertex : Vertex F) : State F :=
  let st1 : State F :=
    if mapCount eq st.uniqueVertices vertex = 0 then
      { uniqueVertices :=
          mapAssign eq st.uniqueVertices vertex (st.vertices.length % UINT32_SIZE)
        vertices := st.vertices ++ [vertex]
        indices := st.indices }
    else st
  let r := mapRead eq st1.uniqueVertices vertex
  { uniqueVertices := r.2, vertices := st1.vertices, indices := st1.indices ++ [r.1] }

/-- The body of the inner loop of the constructor, for one index entry;
`none` when building the vertex is undefined. -/
def loadIndex {F : Type} [One F] [Sub F] (eq : Vertex F → Vertex F → Bool)
    (attrib : tinyobj.attrib_t F) (st : State F) (index : tinyobj.index_t) :
    Option (State F) :=
  match buildVertex attrib index with
  | some vertex => some (loadVertex eq st vertex)
  | none => none

/-- The inner loop of the constructor over `shape.mesh.indices`. -/
def loadShape {F : Type} [One F] [Sub F] (eq : Vertex F → Vertex F → Bool)
    (attrib : tinyobj.attrib_t F) : State F → List tinyobj.index_t → Option (State F)
  | st, [] => some st
  | st, index :: rest =>
    match loadIndex eq attrib st index with
    | some st1 => loadShape eq attrib st1 rest
    | none => none

/-- The outer loop of the constructor over the shapes, each given as its
`mesh.indices`. -/
def loadShapesFrom {F : Type} [One F] [Sub F] (eq : Vertex F → Vertex F → Bool)
    (attrib : tinyobj.attrib_t F) :
    State F → List (List tinyobj.index_t) → Option (State F)
  | st, [] => some st
  | st, shape :: rest =>
    match loadShape eq attrib st shape with
    | some st1 => loadShapesFrom eq attrib st1 rest
    | none => none

/-- The two nested loops of the constructor `Model::Model`, starting with the
three containers empty. -/
def loadShapes {F : Type} [One F] [Sub F] (eq : Vertex F → Vertex F → Bool)
    (attrib : tinyobj.attrib_t F) (shapes : List (List tinyobj.index_t)) :
    Option (State F) :=
  loadShapesFrom eq attrib ⟨[], [], []⟩ shapes

/-- The vertices built from a sequence of index entries, in order. -/
def builtVertices {F : Type} [One F] [Sub F] (attrib : tinyobj.attrib_t F)
    (entries : List tinyobj.index_t) : List (Vertex F) :=
  entries.filterMap (buildVertex attrib)

/-- The distinct elements of a list in order of first occurrence: the head,
then the distinct elements of the tail that are not equal to the head. -/
def firstOccurrences {K : Type} (eq : K → K → Bool) : List K → List K
  | [] => []
  | v :: rest => v :: (firstOccurrences eq rest).filter (fun u => !eq v u)

/-- The state of the loading loop after the entries that built `processed`:
the map sends each stored vertex to its position, `vertices` lists the
distinct vertices in order of first occurrence, and each index points at a
stored vertex equal to the one built from its entry. -/
def Loaded {F : Type} (eq : Vertex F → Vertex F → Bool) (st : State F)
    (processed : List (Vertex F)) : Prop :=
  st.uniqueVertices = st.vertices.zip (List.range st.vertices.length) ∧
  st.vertices = firstOccurrences eq processed ∧
  List.Forall₂ (fun i v => ∃ u, st.vertices[i]? = some u ∧ eq u v = true)
    st.indices processed

/-- A small mesh: two shapes with five index entries, two of them repeats. -/
def sampleShapes : List (List tinyobj.index_t) :=
  [[⟨0, 0, 0⟩, ⟨1, 0, 1⟩, ⟨0, 0, 0⟩], [⟨2, 0, 0⟩, ⟨1, 0, 1⟩]]

/-- The attribute arrays of the small mesh, with integers for floats. -/
def sampleAttrib : tinyobj.attrib_t Int :=
  ⟨[0, 0, 0, 1, 0, 0, 0, 1, 0], [0, 0, 1], [0, 0, 1, 1]⟩

/-- Entry number `k` of a mesh over `m` positions and `m` texture
coordinates: position `k / m` and texture coordinate `k % m`. -/
def gridIndex (m k : Nat) : tinyobj.index_t :=
  ⟨((k / m : Nat) : Int), 0, ((k % m : Nat) : Int)⟩

/-- A mesh of one shape with `n` index entries, which pair `m` positions with
`m` texture coordinates. -/
def gridShape (m n : Nat) : List tinyobj.index_t :=
  (List.range n).map (gridIndex m)

/-- Attribute arrays with `m` positions of coordinates `0, 1, 2, ...`, one
normal, and `m` texture coordinates `(0, 0), (1, 0), (2, 0), ...`; the
numbers are integers, which a `float` holds exactly below `2 ^ 24`. -/
def gridAttrib (m : Nat) : tinyobj.attrib_t Int :=
  ⟨(List.range (3 * m)).map Int.ofNat, [0, 0, 1],
    (List.range (2 * m)).map (fun j => if j % 2 = 0 then ((j / 2 : Nat) : Int) else 0)⟩

/-- The vertex that entry number `k` of the grid mesh builds. -/
def gridVertex (m k : Nat) : Vertex Int :=
  { pos := (((3 * (k / m) : Nat) : Int), ((3 * (k / m) + 1 : Nat) : Int),
      ((3 * (k / m) + 2 : Nat) : Int))
    normal := (0, 0, 1)
    texCoord := (((k % m : Nat) : Int), 1 - 0)
    color := (1, 1, 1) }

end Model

/-! ## Properties of Buffer.h -/

namespace Buffer

theorem filterBit_ne_zero_iff (typeFilter i : Nat) (hi : i < 32) :
    filterBit typeFilter i ≠ 0 ↔ typeFilter.testBit i = true := by
  have hlt : 2 ^ i < UINT32_SIZE := by
    have : 2 ^ i < 2 ^ 32 := Nat.pow_lt_pow_right (by norm_num) hi
    simpa [UINT32_SIZE] using this
  unfold filterBit
  rw [Nat.one_shiftLeft, Nat.mod_eq_of_lt hlt, Nat.and_two_pow]
  cases h : typeFilter.testBit i <;> simp

theorem memoryTypeMatches_iff (typeFilter properties : Nat)
    (memProperties : VkPhysicalDeviceMemoryProperties) (i : Nat) (hi : i < 32) :
    memoryTypeMatches typeFilter properties memProperties i = true ↔
      Suitable typeFilter properties memProperties i := by
  unfold memoryTypeMatches Suitable
  rw [Bool.and_eq_true, bne_iff_ne, beq_iff_eq, filterBit_ne_zero_iff typeFilter i hi]

theorem findMemoryTypeFrom_ok_iff (typeFilter properties : Nat)
    (memProperties : VkPhysicalDeviceMemoryProperties) :
    ∀ (remaining i k : Nat), i + remaining ≤ 32 →
      (findMemoryTypeFrom typeFilter properties memProperties remaining i = .ok k ↔
        i ≤ k ∧ k < i + remaining ∧ Suitable typeFilter properties memProperties k ∧
          ∀ j, i ≤ j → j < k → ¬ Suitable typeFilter properties memProperties j) := by
  intro remaining
  induction remaining with
  | zero =>
    intro i k _
    simp only [findMemoryTypeFrom, Nat.add_zero]
    constructor
    · intro h; cases h
    · rintro ⟨h1, h2, _⟩; omega
  | succ n ih =>
    intro i k hle
    have hi : i < 32 := by omega
    unfold findMemoryTypeFrom
    by_cases hm : memoryTypeMatches typeFilter properties memProperties i = true
    · have hs := (memoryTypeMatches_iff typeFilter properties memProperties i hi).mp hm
      rw [if_pos hm]
      constructor
      · intro h
        have hk : i = k := by injection h
        subst hk
        exact ⟨le_refl _, by omega, hs, fun j h1 h2 => by omega⟩
      · rintro ⟨h1, _, _, h4⟩
        have hk : i = k := by
          by_contra hne
          exact h4 i (le_refl _) (by omega) hs
        rw [hk]
    · have hs : ¬ Suitable typeFilter properties memProperties i := fun h =>
        hm ((memoryTypeMatches_iff typeFilter properties memProperties i hi).mpr h)
      rw [if_neg hm, ih (i + 1) k (by omega)]
      constructor
      · rintro ⟨h1, h2, h3, h4⟩
        refine ⟨by omega, by omega, h3, fun j hj1 hj2 => ?_⟩
        by_cases hji : j = i
        · rw [hji]; exact hs
        · exact h4 j (by omega) hj2
      · rintro ⟨h1, h2, h3, h4⟩
        have hik : i ≠ k := fun h => hs (h ▸ h3)
        exact ⟨by omega, by omega, h3, fun j hj1 hj2 => h4 j (by omega) hj2⟩

theorem findMemoryTypeFrom_error_iff (typeFilter properties : Nat)
    (memProperties : VkPhysicalDeviceMemoryProperties) :
    ∀ (remaining i : Nat), i + remaining ≤ 32 →
      (findMemoryTypeFrom typeFilter properties memProperties remaining i
          = .error "failed to find suitable memory type" ↔
        ∀ j, i ≤ j → j < i + remaining → ¬ Suitable typeFilter properties memProperties j) := by
  intro remaining
  induction remaining with
  | zero =>
    intro i _
    simp only [findMemoryTypeFrom, Nat.add_zero, true_iff]
    intro j h1 h2; omega
  | succ n ih =>
    intro i hle
    have hi : i < 32 := by omega
    unfold findMemoryTypeFrom
    by_cases hm : memoryTypeMatches typeFilter properties memProperties i = true
    · have hs := (memoryTypeMatches_iff typeFilter properties memProperties i hi).mp hm
      rw [if_pos hm]
      constructor
      · intro h; cases h
      · intro h; exact absurd hs (h i (le_refl _) (by omega))
    · have hs : ¬ Suitable typeFilter properties memProperties i := fun h =>
        hm ((memoryTypeMatches_iff typeFilter properties memProperties i hi).mpr h)
      rw [if_neg hm, ih (i + 1) (by omega)]
      constructor
      · intro h j hj1 hj2
        by_cases hji : j = i
        · rw [hji]; exact hs
        · exact h j (by omega) (by omega)
      · intro h j hj1 hj2
        exact h j (by omega) (by omega)

/-- C1: for a table of at most 32 memory types, `findMemoryType` returns index
`i` exactly when `i` is the lowest index below `memoryTypeCount` whose filter
bit is set and whose flags include the required properties, and it throws
"failed to find suitable memory type" exactly when no index below
`memoryTypeCount` is suitable. -/
theorem findMemoryType_lowest_suitable (typeFilter properties : Nat)
    (memProperties : VkPhysicalDeviceMemoryProperties)
    (hcount : memProperties.memoryTypeCount ≤ VK_MAX_MEMORY_TYPES) :
    (∀ i, findMemoryType typeFilter properties memProperties = .ok i ↔
      i < memProperties.memoryTypeCount ∧ Suitable typeFilter properties memProperties i ∧
        ∀ j, j < i → ¬ Suitable typeFilter properties memProperties j) ∧
    (findMemoryType typeFilter properties memProperties
        = .error "failed to find suitable memory type" ↔
      ∀ i, i < memProperties.memoryTypeCount →
        ¬ Suitable typeFilter properties memProperties i) := by
  have h32 : 0 + memProperties.memoryTypeCount ≤ 32 := by
    simpa [VK_MAX_MEMORY_TYPES] using hcount
  constructor
  · intro i
    unfold findMemoryType
    rw [findMemoryTypeFrom_ok_iff typeFilter properties memProperties _ 0 i h32]
    constructor
    · rintro ⟨_, h2, h3, h4⟩
      exact ⟨by omega, h3, fun j hj => h4 j (Nat.zero_le _) hj⟩
    · rintro ⟨h1, h2, h3⟩
      exact ⟨Nat.zero_le _, by omega, h2, fun j _ hj => h3 j hj⟩
  · unfold findMemoryType
    rw [findMemoryTypeFrom_error_iff typeFilter properties memProperties _ 0 h32]
    constructor
    · intro h i hi
      exact h i (Nat.zero_le _) (by omega)
    · intro h j _ hj
      exact h j (by omega)

/-- C1 at a four-entry table: indices 0 and 2 pass the filter `0b0101`, only
index 2 has the required properties `0b0110`, and the result is 2. -/
theorem findMemoryType_lowest_suitable_witness :
    findMemoryType 5 6 ⟨4, [⟨1, 0⟩, ⟨6, 0⟩, ⟨7, 1⟩, ⟨6, 1⟩]⟩ = .ok 2 :=
  ((findMemoryType_lowest_suitable 5 6 ⟨4, [⟨1, 0⟩, ⟨6, 0⟩, ⟨7, 1⟩, ⟨6, 1⟩]⟩
      (by decide)).1 2).mpr (by
    refine ⟨by decide, ⟨by decide, by decide⟩, ?_⟩
    intro j hj
    have hj2 : j = 0 ∨ j = 1 := by omega
    rcases hj2 with h | h <;> subst h <;> unfold Suitable <;> decide)

end Buffer

/-! ## Properties of SwapChain.h: selection functions -/

namespace SwapChain

theorem findSupportedFormat_cons_of_qualifies (p : Platform) (tiling features format : Nat)
    (rest : List Nat) (h : Qualifies p tiling features format) :
    findSupportedFormat p (format :: rest) tiling features = .ok format := by
  unfold findSupportedFormat
  rcases h with ⟨ht, hf⟩ | ⟨ht, hf⟩
  · simp [ht, hf]
  · by_cases h1 : tiling == VK_IMAGE_TILING_LINEAR ∧
        ((p.formatProperties format).linearTilingFeatures &&& features) == features
    · simp only [h1, and_self, if_true]
    · simp [ht, hf]

theorem findSupportedFormat_cons_of_not_qualifies (p : Platform)
    (tiling features format : Nat) (rest : List Nat)
    (h : ¬ Qualifies p tiling features format) :
    findSupportedFormat p (format :: rest) tiling features =
      findSupportedFormat p rest tiling features := by
  unfold Qualifies at h
  rw [findSupportedFormat]
  have h1 : ¬ (tiling == VK_IMAGE_TILING_LINEAR ∧
      ((p.formatProperties format).linearTilingFeatures &&& features) == features) := by
    intro hc
    exact h (Or.inl ⟨by simpa using hc.1, by simpa using hc.2⟩)
  have h2 : ¬ (tiling == VK_IMAGE_TILING_OPTIMAL ∧
      ((p.formatProperties format).optimalTilingFeatures &&& features) == features) := by
    intro hc
    exact h (Or.inr ⟨by simpa using hc.1, by simpa using hc.2⟩)
  simp only [h1, h2, if_false]

/-- C2: `findSupportedFormat` returns a format exactly when it is the first
entry of the candidate list whose feature flags for the requested tiling
include the required features, and it throws "failed to find supported
format" exactly when no candidate qualifies. -/
theorem findSupportedFormat_first_qualifying (p : Platform) (tiling features : Nat)
    (candidates : List Nat) :
    (∀ format, findSupportedFormat p candidates tiling features = .ok format ↔
      ∃ before after, candidates = before ++ format :: after ∧
        (∀ c ∈ before, ¬ Qualifies p tiling features c) ∧
        Qualifies p tiling features format) ∧
    (findSupportedFormat p candidates tiling features
        = .error "failed to find supported format" ↔
      ∀ c ∈ candidates, ¬ Qualifies p tiling features c) := by
  induction candidates with
  | nil =>
    refine ⟨fun format => ?_, ?_⟩
    · simp [findSupportedFormat]
    · simp [findSupportedFormat]
  | cons c rest ih =>
    by_cases hq : Qualifies p tiling features c
    · rw [findSupportedFormat_cons_of_qualifies p tiling features c rest hq]
      refine ⟨fun format => ?_, ?_⟩
      · constructor
        · intro h
          have hc : c = format := by injection h
          subst hc
          exact ⟨[], rest, rfl, by simp, hq⟩
        · rintro ⟨before, after, heq, hbefore, _⟩
          cases before with
          | nil =>
            simp only [List.nil_append, List.cons.injEq] at heq
            rw [heq.1]
          | cons b bs =>
            simp only [List.cons_append, List.cons.injEq] at heq
            exact absurd (heq.1 ▸ hq) (hbefore b (List.mem_cons_self _ _))
      · constructor
        · intro h; cases h
        · intro h; exact absurd hq (h c (List.mem_cons_self _ _))
    · rw [findSupportedFormat_cons_of_not_qualifies p tiling features c rest hq]
      refine ⟨fun format => ?_, ?_⟩
      · rw [ih.1 format]
        constructor
        · rintro ⟨before, after, heq, hbefore, hf⟩
          refine ⟨c :: before, after, by rw [heq]; rfl, ?_, hf⟩
          intro x hx
          rcases List.mem_cons.mp hx with hx | hx
          · rw [hx]; exact hq
          · exact hbefore x hx
        · rintro ⟨before, after, heq, hbefore, hf⟩
          cases before with
          | nil =>
            simp only [List.nil_append, List.cons.injEq] at heq
            exact absurd (heq.1 ▸ hf) hq
          | cons b bs =>
            simp only [List.cons_append, List.cons.injEq] at heq
            exact ⟨bs, after, heq.2, fun x hx => hbefore x (List.mem_cons_of_mem _ hx), hf⟩
      · rw [ih.2]
        constructor
        · intro h x hx
          rcases List.mem_cons.mp hx with hx | hx
          · rw [hx]; exact hq
          · exact h x hx
        · intro h x hx
          exact h x (List.mem_cons_of_mem _ hx)

end SwapChain

/-! ## Properties of SwapChain.h: extent, image count, format and present mode -/

namespace SwapChain

theorem toUnsigned_of_nonneg (x : Int) (h0 : 0 ≤ x) (h1 : x < 2147483648) :
    (toUnsigned x : Int) = x := by
  unfold toUnsigned UINT32_SIZE
  have hlt : x < ((4294967296 : Nat) : Int) := by
    have : ((4294967296 : Nat) : Int) = 4294967296 := by norm_num
    omega
  rw [Int.emod_eq_of_lt h0 hlt]
  exact Int.toNat_of_nonneg h0

theorem clamp_eq_max_min (v lo hi : Nat) (h : lo ≤ hi) :
    clamp v lo hi = max lo (min hi v) := by
  unfold clamp
  split_ifs <;> omega

/-- C3: when the reported extent is not the sentinel (`currentExtent.width`
different from `UINT32_MAX`) the result is `currentExtent`; when it is, the
result is the window framebuffer size clamped component by component to
`[minImageExtent, maxImageExtent]`, so a component of the window size that
exceeds `maxImageExtent` yields `maxImageExtent`.  The window size is a pair
of non-negative `int`s, as GLFW reports it, and `minImageExtent` is at most
`maxImageExtent`, as `std::clamp` requires. -/
theorem chooseSwapExtent_clamps (capabilities : VkSurfaceCapabilitiesKHR) (p : Platform)
    (w : World)
    (hwidth : capabilities.minImageExtent.width ≤ capabilities.maxImageExtent.width)
    (hheight : capabilities.minImageExtent.height ≤ capabilities.maxImageExtent.height)
    (hw : 0 ≤ (p.framebufferSize w.polls).1 ∧ (p.framebufferSize w.polls).1 < 2147483648)
    (hh : 0 ≤ (p.framebufferSize w.polls).2 ∧ (p.framebufferSize w.polls).2 < 2147483648) :
    (capabilities.currentExtent.width ≠ UINT32_MAX →
      (chooseSwapExtent capabilities p w).1 = capabilities.currentExtent) ∧
    (capabilities.currentExtent.width = UINT32_MAX →
      (((chooseSwapExtent capabilities p w).1.width : Int) =
          max (capabilities.minImageExtent.width : Int)
            (min (capabilities.maxImageExtent.width : Int) (p.framebufferSize w.polls).1)) ∧
      (((chooseSwapExtent capabilities p w).1.height : Int) =
          max (capabilities.minImageExtent.height : Int)
            (min (capabilities.maxImageExtent.height : Int) (p.framebufferSize w.polls).2)) ∧
      ((capabilities.maxImageExtent.width : Int) < (p.framebufferSize w.polls).1 →
        (chooseSwapExtent capabilities p w).1.width = capabilities.maxImageExtent.width) ∧
      ((capabilities.maxImageExtent.height : Int) < (p.framebufferSize w.polls).2 →
        (chooseSwapExtent capabilities p w).1.height = capabilities.maxImageExtent.height)) := by
  constructor
  · intro hne
    simp [chooseSwapExtent, hne]
  · intro heq
    have e1 := toUnsigned_of_nonneg _ hw.1 hw.2
    have e2 := toUnsigned_of_nonneg _ hh.1 hh.2
    have hW : (chooseSwapExtent capabilities p w).1.width =
        clamp (toUnsigned (p.framebufferSize w.polls).1) capabilities.minImageExtent.width
          capabilities.maxImageExtent.width := by
      simp [chooseSwapExtent, heq, glfwGetFramebufferSize]
    have hH : (chooseSwapExtent capabilities p w).1.height =
        clamp (toUnsigned (p.framebufferSize w.polls).2) capabilities.minImageExtent.height
          capabilities.maxImageExtent.height := by
      simp [chooseSwapExtent, heq, glfwGetFramebufferSize]
    rw [hW, hH, clamp_eq_max_min _ _ _ hwidth, clamp_eq_max_min _ _ _ hheight]
    refine ⟨?_, ?_, ?_, ?_⟩
    · push_cast; rw [e1]
    · push_cast; rw [e2]
    · intro hlt
      rw [← e1] at hlt
      have : capabilities.maxImageExtent.width < toUnsigned (p.framebufferSize w.polls).1 := by
        exact_mod_cast hlt
      omega
    · intro hlt
      rw [← e2] at hlt
      have : capabilities.maxImageExtent.height < toUnsigned (p.framebufferSize w.polls).2 := by
        exact_mod_cast hlt
      omega

/-- C3 at the sentinel extent with bounds (1,1) and (4096,4096) and a window
of 1920 by 1080: the result is exactly (1920,1080). -/
theorem chooseSwapExtent_clamps_witness :
    (chooseSwapExtent samplePlatform.capabilities samplePlatform World.initial).1 = ⟨1920, 1080⟩ ∧
    (samplePlatform.capabilities.currentExtent.width = UINT32_MAX →
      (((chooseSwapExtent samplePlatform.capabilities samplePlatform World.initial).1.width : Int) =
        max (1 : Int) (min (4096 : Int) 1920))) :=
  ⟨by decide, fun h =>
    ((chooseSwapExtent_clamps samplePlatform.capabilities samplePlatform World.initial
      (by decide) (by decide) (by decide) (by decide)).2 h).1⟩

theorem requestedImageCount_eq_target (capabilities : VkSurfaceCapabilitiesKHR)
    (h : capabilities.minImageCount < UINT32_MAX) :
    requestedImageCount capabilities = targetImageCount capabilities := by
  unfold requestedImageCount targetImageCount
  have hmod : (capabilities.minImageCount + 1) % UINT32_SIZE = capabilities.minImageCount + 1 := by
    apply Nat.mod_eq_of_lt
    unfold UINT32_MAX at h
    unfold UINT32_SIZE
    omega
  simp only [hmod]
  split_ifs <;> omega

/-- C4 at `minImageCount = maxImageCount = UINT32_MAX`: `minImageCount + 1`
wraps around, the requested image count is 0, whereas
`min(minImageCount + 1, maxImageCount)` is 4294967295. -/
theorem requestedImageCount_wraps :
    requestedImageCount ⟨4294967295, 4294967295, ⟨800, 600⟩, ⟨1, 1⟩, ⟨4096, 4096⟩, 1⟩ = 0 ∧
    targetImageCount ⟨4294967295, 4294967295, ⟨800, 600⟩, ⟨1, 1⟩, ⟨4096, 4096⟩, 1⟩
      = 4294967295 := by
  constructor <;> decide

/-- C2 on the sample device, where the first depth candidate lacks the
depth-stencil feature and the second has it: the second is returned. -/
theorem findSupportedFormat_first_qualifying_witness :
    findSupportedFormat samplePlatform
      [VK_FORMAT_D32_SFLOAT, VK_FORMAT_D32_SFLOAT_S8_UINT, VK_FORMAT_D24_UNORM_S8_UINT]
      VK_IMAGE_TILING_OPTIMAL VK_FORMAT_FEATURE_DEPTH_STENCIL_ATTACHMENT_BIT
        = .ok VK_FORMAT_D32_SFLOAT_S8_UINT :=
  ((findSupportedFormat_first_qualifying samplePlatform VK_IMAGE_TILING_OPTIMAL
      VK_FORMAT_FEATURE_DEPTH_STENCIL_ATTACHMENT_BIT
      [VK_FORMAT_D32_SFLOAT, VK_FORMAT_D32_SFLOAT_S8_UINT, VK_FORMAT_D24_UNORM_S8_UINT]).1
    VK_FORMAT_D32_SFLOAT_S8_UINT).mpr
    ⟨[VK_FORMAT_D32_SFLOAT], [VK_FORMAT_D24_UNORM_S8_UINT], rfl,
      by
        intro c hc
        rw [List.mem_singleton] at hc
        subst hc
        unfold Qualifies
        decide,
      by unfold Qualifies; decide⟩

theorem isPreferredFormat_iff (availableFormat : VkSurfaceFormatKHR) :
    isPreferredFormat availableFormat = true ↔ Preferred availableFormat := by
  unfold isPreferredFormat Preferred
  rw [Bool.and_eq_true, beq_iff_eq, beq_iff_eq]

theorem chooseSwapSurfaceFormatLoop_none_iff (availableFormats : List VkSurfaceFormatKHR) :
    chooseSwapSurfaceFormatLoop availableFormats = none ↔
      ∀ f ∈ availableFormats, ¬ Preferred f := by
  induction availableFormats with
  | nil => simp [chooseSwapSurfaceFormatLoop]
  | cons a rest ih =>
    unfold chooseSwapSurfaceFormatLoop
    by_cases ha : isPreferredFormat a = true
    · rw [if_pos ha]
      constructor
      · intro h; cases h
      · intro h
        exact absurd ((isPreferredFormat_iff a).mp ha) (h a (List.mem_cons_self _ _))
    · rw [if_neg ha, ih]
      have hna : ¬ Preferred a := fun h => ha ((isPreferredFormat_iff a).mpr h)
      constructor
      · intro h f hf
        rcases List.mem_cons.mp hf with hf | hf
        · rw [hf]; exact hna
        · exact h f hf
      · intro h f hf
        exact h f (List.mem_cons_of_mem _ hf)

theorem chooseSwapSurfaceFormatLoop_some (availableFormats : List VkSurfaceFormatKHR)
    (chosen : VkSurfaceFormatKHR)
    (h : chooseSwapSurfaceFormatLoop availableFormats = some chosen) :
    ∃ before after, availableFormats = before ++ chosen :: after ∧
      (∀ f ∈ before, ¬ Preferred f) ∧ Preferred chosen := by
  induction availableFormats with
  | nil => simp [chooseSwapSurfaceFormatLoop] at h
  | cons a rest ih =>
    unfold chooseSwapSurfaceFormatLoop at h
    by_cases ha : isPreferredFormat a = true
    · rw [if_pos ha] at h
      have hc : a = chosen := by injection h
      subst hc
      exact ⟨[], rest, rfl, by simp, (isPreferredFormat_iff a).mp ha⟩
    · rw [if_neg ha] at h
      obtain ⟨before, after, heq, hbefore, hp⟩ := ih h
      refine ⟨a :: before, after, by rw [heq]; rfl, ?_, hp⟩
      intro f hf
      rcases List.mem_cons.mp hf with hf | hf
      · rw [hf]; exact fun hpa => ha ((isPreferredFormat_iff a).mpr hpa)
      · exact hbefore f hf

theorem chooseSwapSurfaceFormat_some_mem (availableFormats : List VkSurfaceFormatKHR)
    (hne : availableFormats ≠ []) :
    ∃ chosen, chooseSwapSurfaceFormat availableFormats = some chosen ∧
      chosen ∈ availableFormats := by
  cases hloop : chooseSwapSurfaceFormatLoop availableFormats with
  | some chosen =>
    obtain ⟨before, after, heq, _, _⟩ :=
      chooseSwapSurfaceFormatLoop_some availableFormats chosen hloop
    refine ⟨chosen, by simp [chooseSwapSurfaceFormat, hloop], ?_⟩
    rw [heq]
    simp
  | none =>
    cases availableFormats with
    | nil => exact absurd rfl hne
    | cons a rest =>
      exact ⟨a, by simp [chooseSwapSurfaceFormat, hloop], List.mem_cons_self _ _⟩

/-- C5: for a non-empty list of supported formats `chooseSwapSurfaceFormat`
returns an element of the list: the first entry that is B8G8R8A8_SRGB with the
SRGB_NONLINEAR colour space when the list has one, and the first entry of the
list when it has none. -/
theorem chooseSwapSurfaceFormat_prefers_srgb (availableFormats : List VkSurfaceFormatKHR)
    (hne : availableFormats ≠ []) :
    ∃ chosen, chooseSwapSurfaceFormat availableFormats = some chosen ∧
      chosen ∈ availableFormats ∧
      ((∃ before after, availableFormats = before ++ chosen :: after ∧
          (∀ f ∈ before, ¬ Preferred f) ∧ Preferred chosen) ∨
        ((∀ f ∈ availableFormats, ¬ Preferred f) ∧ availableFormats.head? = some chosen)) := by
  cases hloop : chooseSwapSurfaceFormatLoop availableFormats with
  | some chosen =>
    obtain ⟨before, after, heq, hbefore, hp⟩ :=
      chooseSwapSurfaceFormatLoop_some availableFormats chosen hloop
    refine ⟨chosen, by simp [chooseSwapSurfaceFormat, hloop], ?_, Or.inl ⟨before, after, heq, hbefore, hp⟩⟩
    rw [heq]
    simp
  | none =>
    cases availableFormats with
    | nil => exact absurd rfl hne
    | cons a rest =>
      refine ⟨a, by simp [chooseSwapSurfaceFormat, hloop], List.mem_cons_self _ _, Or.inr ⟨?_, rfl⟩⟩
      exact (chooseSwapSurfaceFormatLoop_none_iff _).mp hloop

/-- C5 on three formats none of which is BGRA/sRGB: the first candidate is
chosen. -/
theorem chooseSwapSurfaceFormat_prefers_srgb_witness :
    chooseSwapSurfaceFormat [⟨44, 0⟩, ⟨37, 0⟩, ⟨43, 0⟩] = some ⟨44, 0⟩ ∧
    ∃ chosen, chooseSwapSurfaceFormat [⟨44, 0⟩, ⟨37, 0⟩, ⟨43, 0⟩] = some chosen ∧
      chosen ∈ [(⟨44, 0⟩ : VkSurfaceFormatKHR), ⟨37, 0⟩, ⟨43, 0⟩] :=
  ⟨by decide,
    (chooseSwapSurfaceFormat_prefers_srgb [⟨44, 0⟩, ⟨37, 0⟩, ⟨43, 0⟩] (by decide)).imp
      fun _ h => ⟨h.1, h.2.1⟩⟩

theorem chooseSwapPresentMode_eq (availablePresentModes : List Nat) :
    chooseSwapPresentMode availablePresentModes =
      if VK_PRESENT_MODE_MAILBOX_KHR ∈ availablePresentModes then VK_PRESENT_MODE_MAILBOX_KHR
      else VK_PRESENT_MODE_FIFO_KHR := by
  induction availablePresentModes with
  | nil => simp [chooseSwapPresentMode]
  | cons a rest ih =>
    unfold chooseSwapPresentMode
    by_cases ha : a = VK_PRESENT_MODE_MAILBOX_KHR
    · simp [ha]
    · have hne : ¬ VK_PRESENT_MODE_MAILBOX_KHR = a := fun h => ha h.symm
      simp only [beq_iff_eq, ha, if_false, ih, List.mem_cons, hne, false_or]

/-- C6: `chooseSwapPresentMode` returns MAILBOX when MAILBOX occurs in the
sequence and FIFO otherwise, and returns the same mode for every permutation
of the sequence. -/
theorem chooseSwapPresentMode_mailbox_or_fifo (availablePresentModes permuted : List Nat)
    (hperm : availablePresentModes.Perm permuted) :
    chooseSwapPresentMode availablePresentModes =
      (if VK_PRESENT_MODE_MAILBOX_KHR ∈ availablePresentModes then VK_PRESENT_MODE_MAILBOX_KHR
        else VK_PRESENT_MODE_FIFO_KHR) ∧
    chooseSwapPresentMode permuted = chooseSwapPresentMode availablePresentModes := by
  refine ⟨chooseSwapPresentMode_eq _, ?_⟩
  rw [chooseSwapPresentMode_eq, chooseSwapPresentMode_eq]
  by_cases h : VK_PRESENT_MODE_MAILBOX_KHR ∈ availablePresentModes
  · rw [if_pos h, if_pos (hperm.mem_iff.mp h)]
  · rw [if_neg h, if_neg (fun h2 => h (hperm.mem_iff.mpr h2))]

/-- C6 on the modes FIFO, IMMEDIATE, MAILBOX and a permutation of them. -/
theorem chooseSwapPresentMode_mailbox_or_fifo_witness :
    chooseSwapPresentMode [2, 0, 1] = VK_PRESENT_MODE_MAILBOX_KHR ∧
    chooseSwapPresentMode [1, 2, 0] = chooseSwapPresentMode [2, 0, 1] :=
  ⟨by decide,
    (chooseSwapPresentMode_mailbox_or_fifo [2, 0, 1] [1, 2, 0] (by decide)).2⟩

/-! ## Properties of SwapChain.h: teardown -/

theorem destroyImage_eq (img : Image) (w : World) :
    img.destroyImage w = ⟨w.nextHandle, w.polls, w.calls ++ img.destroyCalls⟩ := by
  unfold Image.destroyImage Image.destroyCalls World.emit
  by_cases h : img.imageView ≠ VK_NULL_HANDLE
  · simp [h]
  · simp [h]

theorem getD_cons_drop {α : Type} (l : List α) (i : Nat) (d : α) (h : i < l.length) :
    l.getD i d :: l.drop (i + 1) = l.drop i := by
  rw [List.getD_eq_getElem l d h, ← List.drop_eq_getElem_cons h]

theorem destroyFramebuffersFrom_eq (s : SwapChain) :
    ∀ (remaining i : Nat) (w : World), i + remaining = s.swapChainFramebuffers.length →
      destroyFramebuffersFrom s remaining i w =
        ⟨w.nextHandle, w.polls,
          w.calls ++ (s.swapChainFramebuffers.drop i).map VkCall.vkDestroyFramebuffer⟩ := by
  intro remaining
  induction remaining with
  | zero =>
    intro i w h
    have hdrop : s.swapChainFramebuffers.drop i = [] := List.drop_of_length_le (by omega)
    simp [destroyFramebuffersFrom, hdrop]
  | succ n ih =>
    intro i w h
    rw [destroyFramebuffersFrom, ih (i + 1) _ (by omega),
      ← getD_cons_drop s.swapChainFramebuffers i VK_NULL_HANDLE (by omega)]
    simp [World.emit]

theorem destroyImageViewsFrom_eq (s : SwapChain) :
    ∀ (remaining i : Nat) (w : World), i + remaining = s.swapChainImageViews.length →
      destroyImageViewsFrom s remaining i w =
        ⟨w.nextHandle, w.polls,
          w.calls ++ (s.swapChainImageViews.drop i).map VkCall.vkDestroyImageView⟩ := by
  intro remaining
  induction remaining with
  | zero =>
    intro i w h
    have hdrop : s.swapChainImageViews.drop i = [] := List.drop_of_length_le (by omega)
    simp [destroyImageViewsFrom, hdrop]
  | succ n ih =>
    intro i w h
    rw [destroyImageViewsFrom, ih (i + 1) _ (by omega),
      ← getD_cons_drop s.swapChainImageViews i VK_NULL_HANDLE (by omega)]
    simp [World.emit]

theorem cleanupSwapChain_eq (s : SwapChain) (w : World) (color depth : Image)
    (hcolor : s.colorImage = some color) (hdepth : s.depthImage = some depth) :
    cleanupSwapChain s w = .ok ⟨w.nextHandle, w.polls,
      w.calls ++ (color.destroyCalls ++ depth.destroyCalls ++
        s.swapChainFramebuffers.map VkCall.vkDestroyFramebuffer ++
        s.swapChainImageViews.map VkCall.vkDestroyImageView ++
        [VkCall.vkDestroySwapchainKHR s.swapChain])⟩ := by
  unfold cleanupSwapChain
  rw [hcolor, hdepth]
  simp only [destroyImage_eq, destroyFramebuffersFrom_eq s _ 0 _ (Nat.zero_add _),
    destroyImageViewsFrom_eq s _ 0 _ (Nat.zero_add _), World.emit, List.drop_zero,
    List.append_assoc]

/-- C8, refuted on the sample swap chain: the image of the colour attachment
(handle 8) is destroyed before framebuffer 14, which references its view, and
not the other way round. -/
theorem cleanupSwapChain_attachment_before_framebuffer :
    ∃ w1, cleanupSwapChain sampleSwapChain ⟨17, 2, []⟩ = .ok w1 ∧
      List.Sublist [VkCall.vkDestroyImage 8, VkCall.vkDestroyFramebuffer 14] w1.calls ∧
      ¬ List.Sublist [VkCall.vkDestroyFramebuffer 14, VkCall.vkDestroyImage 8] w1.calls :=
  ⟨_, rfl, by decide, by decide⟩

/-- C8 as amended: `cleanupSwapChain` succeeds on a swap chain that has both
attachments and releases in four consecutive groups: first the calls that
destroy the colour and the depth attachment, then one `vkDestroyFramebuffer`
per framebuffer, then one `vkDestroyImageView` per per-image view, then
`vkDestroySwapchainKHR`; so every framebuffer and every view is destroyed
before the chain, and the attachments are destroyed before the framebuffers
that reference them. -/
theorem cleanupSwapChain_release_groups (s : SwapChain) (w : World) (color depth : Image)
    (hcolor : s.colorImage = some color) (hdepth : s.depthImage = some depth) :
    ∃ attachments framebuffers views,
      cleanupSwapChain s w = .ok ⟨w.nextHandle, w.polls, w.calls ++
        (attachments ++ framebuffers ++ views ++ [VkCall.vkDestroySwapchainKHR s.swapChain])⟩ ∧
      (∀ c, c ∈ attachments ↔ c ∈ color.destroyCalls ∨ c ∈ depth.destroyCalls) ∧
      (∀ c, c ∈ framebuffers ↔
        ∃ fb, fb ∈ s.swapChainFramebuffers ∧ c = VkCall.vkDestroyFramebuffer fb) ∧
      (∀ c, c ∈ views ↔
        ∃ v, v ∈ s.swapChainImageViews ∧ c = VkCall.vkDestroyImageView v) ∧
      framebuffers.length = s.swapChainFramebuffers.length ∧
      views.length = s.swapChainImageViews.length := by
  refine ⟨color.destroyCalls ++ depth.destroyCalls,
    s.swapChainFramebuffers.map VkCall.vkDestroyFramebuffer,
    s.swapChainImageViews.map VkCall.vkDestroyImageView,
    cleanupSwapChain_eq s w color depth hcolor hdepth, ?_, ?_, ?_, ?_, ?_⟩
  · intro c
    exact List.mem_append
  · intro c
    rw [List.mem_map]
    constructor
    · rintro ⟨fb, h1, h2⟩; exact ⟨fb, h1, h2.symm⟩
    · rintro ⟨fb, h1, h2⟩; exact ⟨fb, h1, h2.symm⟩
  · intro c
    rw [List.mem_map]
    constructor
    · rintro ⟨v, h1, h2⟩; exact ⟨v, h1, h2.symm⟩
    · rintro ⟨v, h1, h2⟩; exact ⟨v, h1, h2.symm⟩
  · exact List.length_map _ _
  · exact List.length_map _ _

/-- C8 as amended, on the sample swap chain. -/
theorem cleanupSwapChain_release_groups_witness :
    ∃ attachments framebuffers views,
      cleanupSwapChain sampleSwapChain ⟨17, 2, []⟩ = .ok ⟨17, 2, [] ++
        (attachments ++ framebuffers ++ views ++ [VkCall.vkDestroySwapchainKHR 1])⟩ ∧
      framebuffers.length = 3 ∧ views.length = 3 :=
  (cleanupSwapChain_release_groups sampleSwapChain ⟨17, 2, []⟩
    ⟨8, 9, 10, 1920, 1080, 1, 4, 44⟩ ⟨11, 12, 13, 1920, 1080, 1, 4, 130⟩ rfl rfl).imp
    fun _ h => h.imp fun _ h => h.imp fun _ h => ⟨h.1, h.2.2.2.2.1, h.2.2.2.2.2⟩

/-- C9: on a swap chain that has both attachments `cleanupSwapChain` succeeds
and issues exactly these calls, in this order: the destroy calls of the colour
attachment, those of the depth attachment, `vkDestroyFramebuffer` for each
element of `swapChainFramebuffers` in index order, `vkDestroyImageView` for
each element of `swapChainImageViews` in index order, and last
`vkDestroySwapchainKHR`; the only images destroyed are those of the two
attachments, so no element of `swapChainImages` is destroyed when the
attachment images are not among them. -/
theorem cleanupSwapChain_call_sequence (s : SwapChain) (w : World) (color depth : Image)
    (hcolor : s.colorImage = some color) (hdepth : s.depthImage = some depth) :
    ∃ w1, cleanupSwapChain s w = .ok w1 ∧
      w1.calls = w.calls ++ (color.destroyCalls ++ depth.destroyCalls ++
        s.swapChainFramebuffers.map VkCall.vkDestroyFramebuffer ++
        s.swapChainImageViews.map VkCall.vkDestroyImageView ++
        [VkCall.vkDestroySwapchainKHR s.swapChain]) ∧
      (∀ image, VkCall.vkDestroyImage image ∈ w1.calls.drop w.calls.length →
        image = color.image ∨ image = depth.image) ∧
      (color.image ∉ s.swapChainImages → depth.image ∉ s.swapChainImages →
        ∀ image ∈ s.swapChainImages,
          VkCall.vkDestroyImage image ∉ w1.calls.drop w.calls.length) := by
  refine ⟨_, cleanupSwapChain_eq s w color depth hcolor hdepth, rfl, ?_⟩
  have honly : ∀ image, VkCall.vkDestroyImage image ∈
      (color.destroyCalls ++ depth.destroyCalls ++
        s.swapChainFramebuffers.map VkCall.vkDestroyFramebuffer ++
        s.swapChainImageViews.map VkCall.vkDestroyImageView ++
        [VkCall.vkDestroySwapchainKHR s.swapChain]) →
      image = color.image ∨ image = depth.image := by
    intro image h
    simp only [Image.destroyCalls, List.mem_append, List.mem_map, List.mem_cons,
      List.mem_singleton, List.mem_ite_nil_right, VkCall.vkDestroyImage.injEq, and_false,
      exists_false, or_false, false_or, reduceCtorEq, List.not_mem_nil, exists_const] at h
    exact h
  simp only [List.drop_left]
  refine ⟨honly, fun hc hd image himage hmem => ?_⟩
  rcases honly image hmem with h | h
  · exact hc (h ▸ himage)
  · exact hd (h ▸ himage)

/-- C9 on the sample swap chain: the thirteen calls, none of them on the swap
chain images 2, 3 and 4. -/
theorem cleanupSwapChain_call_sequence_witness :
    ∃ w1, cleanupSwapChain sampleSwapChain ⟨17, 2, []⟩ = .ok w1 ∧
      w1.calls = [] ++ ([VkCall.vkDestroyImageView 10, VkCall.vkDestroyImage 8,
          VkCall.vkFreeMemory 9] ++
        [VkCall.vkDestroyImageView 13, VkCall.vkDestroyImage 11, VkCall.vkFreeMemory 12] ++
        [VkCall.vkDestroyFramebuffer 14, VkCall.vkDestroyFramebuffer 15,
          VkCall.vkDestroyFramebuffer 16] ++
        [VkCall.vkDestroyImageView 5, VkCall.vkDestroyImageView 6,
          VkCall.vkDestroyImageView 7] ++
        [VkCall.vkDestroySwapchainKHR 1]) :=
  (cleanupSwapChain_call_sequence sampleSwapChain ⟨17, 2, []⟩
    ⟨8, 9, 10, 1920, 1080, 1, 4, 44⟩ ⟨11, 12, 13, 1920, 1080, 1, 4, 130⟩ rfl rfl).imp
    fun _ h => ⟨h.1, h.2.1⟩

/-! ## Properties of SwapChain.h: the lengths of the three sequences -/

theorem length_resize {α : Type} (v : List α) (n : Nat) (d : α) :
    (resize v n d).length = n := by
  unfold resize
  simp only [List.length_append, List.length_take, List.length_replicate]
  omega

theorem length_overwrite {α : Type} (v data : List α) :
    (overwrite v data).length = v.length := by
  unfold overwrite
  simp only [List.length_take, List.length_append, List.length_drop]
  omega

/-- The members that `createImageViews` and its loop leave alone. -/
theorem createImageViewsFrom_frame (p : Platform) :
    ∀ (remaining i : Nat) (s : SwapChain) (w : World) (s1 : SwapChain) (w1 : World),
      createImageViewsFrom p remaining i s w = .ok (s1, w1) →
      s1.swapChainImageViews.length = s.swapChainImageViews.length ∧
      s1 = { s with swapChainImageViews := s1.swapChainImageViews } := by
  intro remaining
  induction remaining with
  | zero =>
    intro i s w s1 w1 h
    simp only [createImageViewsFrom, Except.ok.injEq, Prod.mk.injEq] at h
    rw [← h.1]
    exact ⟨rfl, rfl⟩
  | succ n ih =>
    intro i s w s1 w1 h
    rw [createImageViewsFrom] at h
    cases hv : ImageView.createImageView (s.swapChainImages.getD i VK_NULL_HANDLE)
        s.swapChainImageFormat VK_IMAGE_ASPECT_COLOR_BIT 1 p w with
    | error e =>
      rw [hv] at h
      cases h
    | ok r =>
      rw [hv] at h
      have h2 := ih _ _ _ _ _ h
      rw [List.length_set] at h2
      refine ⟨h2.1, ?_⟩
      rw [h2.2]

theorem createImageViews_frame (p : Platform) (s : SwapChain) (w : World) (s1 : SwapChain)
    (w1 : World) (h : createImageViews p s w = .ok (s1, w1)) :
    s1.swapChainImageViews.length = s.swapChainImages.length ∧
    s1 = { s with swapChainImageViews := s1.swapChainImageViews } := by
  unfold createImageViews at h
  have h2 := createImageViewsFrom_frame p _ _ _ _ _ _ h
  rw [length_resize] at h2
  refine ⟨h2.1, ?_⟩
  rw [h2.2]

theorem createColorResources_frame (p : Platform) (s : SwapChain) (w : World)
    (s1 : SwapChain) (w1 : World) (h : createColorResources p s w = .ok (s1, w1)) :
    s1 = { s with colorImage := s1.colorImage } := by
  unfold createColorResources at h
  cases hc : Image.create s.swapChainExtent.width s.swapChainExtent.height 1 s.msaaSamples
      s.swapChainImageFormat VK_IMAGE_TILING_OPTIMAL
      (VK_IMAGE_USAGE_TRANSIENT_ATTACHMENT_BIT ||| VK_IMAGE_USAGE_COLOR_ATTACHMENT_BIT)
      VK_MEMORY_PROPERTY_DEVICE_LOCAL_BIT p w with
  | error e => simp [bind, Except.bind, hc] at h
  | ok r =>
    cases hv : r.1.createImageView VK_IMAGE_ASPECT_COLOR_BIT 1 p r.2 with
    | error e => simp [bind, Except.bind, hc, hv] at h
    | ok r2 =>
      simp only [bind, Except.bind, hc, hv, pure, Except.pure, Except.ok.injEq,
        Prod.mk.injEq] at h
      rw [← h.1]

theorem createDepthResources_frame (p : Platform) (s : SwapChain) (w : World)
    (s1 : SwapChain) (w1 : World) (h : createDepthResources p s w = .ok (s1, w1)) :
    s1 = { s with depthImage := s1.depthImage } := by
  unfold createDepthResources at h
  cases hf : findDepthFormat p with
  | error e => rw [hf] at h; cases h
  | ok depthFormat =>
    rw [hf] at h
    cases hc : Image.create s.swapChainExtent.width s.swapChainExtent.height 1 s.msaaSamples
        depthFormat VK_IMAGE_TILING_OPTIMAL VK_IMAGE_USAGE_DEPTH_STENCIL_ATTACHMENT_BIT
        VK_MEMORY_PROPERTY_DEVICE_LOCAL_BIT p w with
    | error e => simp [bind, Except.bind, hc] at h
    | ok r =>
      cases hv : r.1.createImageView VK_IMAGE_ASPECT_DEPTH_BIT 1 p r.2 with
      | error e => simp [bind, Except.bind, hc, hv] at h
      | ok r2 =>
        simp only [bind, Except.bind, hc, hv, pure, Except.pure, Except.ok.injEq,
          Prod.mk.injEq] at h
        rw [← h.1]

/-- What a successful `createSwapChain` leaves in the members. -/
theorem createSwapChain_frame (p : Platform) (s : SwapChain) (w : World)
    (s1 : SwapChain) (w1 : World) (h : createSwapChain p s w = .ok (s1, w1)) :
    s1.swapChainImages.length = negotiatedImageCount p ∧
    s1.swapChainImageViews.length = negotiatedImageCount p ∧
    s1.swapChainFramebuffers = s.swapChainFramebuffers ∧
    (∃ surfaceFormat, chooseSwapSurfaceFormat p.formats = some surfaceFormat ∧
      s1.swapChainImageFormat = surfaceFormat.format) ∧
    s1.swapChainExtent = (chooseSwapExtent p.capabilities p w).1 ∧
    s1.msaaSamples = p.maxUsableSampleCount := by
  unfold createSwapChain at h
  cases hformat : chooseSwapSurfaceFormat p.formats with
  | none => simp [hformat] at h
  | some surfaceFormat =>
    cases hg : p.graphicsFamily with
    | none => simp [hformat, hg] at h
    | some graphicsFamily =>
      cases hp : p.presentFamily with
      | none => simp [hformat, hg, hp] at h
      | some presentFamily =>
        by_cases hres : p.vkResult (chooseSwapExtent p.capabilities p w).2.nextHandle
            = VK_SUCCESS
        · simp only [hformat, hg, hp, hres, ne_eq, not_true_eq_false, if_false] at h
          generalize hs2 : ({ s with
              msaaSamples := p.maxUsableSampleCount
              swapChain := (chooseSwapExtent p.capabilities p w).2.nextHandle
              swapChainImages := overwrite
                (resize s.swapChainImages
                  (p.swapchainImageCount (swapchainCreateInfo p surfaceFormat
                    (chooseSwapPresentMode p.presentModes)
                    (chooseSwapExtent p.capabilities p w).1
                    (requestedImageCount p.capabilities) graphicsFamily
                    presentFamily).minImageCount) VK_NULL_HANDLE)
                (List.range'
                  ((((chooseSwapExtent p.capabilities p w).2.take 1).emit
                    (VkCall.vkCreateSwapchainKHR (swapchainCreateInfo p surfaceFormat
                      (chooseSwapPresentMode p.presentModes)
                      (chooseSwapExtent p.capabilities p w).1
                      (requestedImageCount p.capabilities) graphicsFamily presentFamily)
                      (chooseSwapExtent p.capabilities p w).2.nextHandle)).nextHandle)
                  (p.swapchainImageCount (swapchainCreateInfo p surfaceFormat
                    (chooseSwapPresentMode p.presentModes)
                    (chooseSwapExtent p.capabilities p w).1
                    (requestedImageCount p.capabilities) graphicsFamily
                    presentFamily).minImageCount))
              swapChainImageFormat := surfaceFormat.format
              swapChainExtent := (chooseSwapExtent p.capabilities p w).1 } : SwapChain) = s2 at h
          have hlen : s2.swapChainImages.length = negotiatedImageCount p := by
            rw [← hs2]
            simp only [length_overwrite, length_resize]
            rfl
          cases hviews : createImageViews p s2
              (((((chooseSwapExtent p.capabilities p w).2.take 1).emit
                (VkCall.vkCreateSwapchainKHR (swapchainCreateInfo p surfaceFormat
                  (chooseSwapPresentMode p.presentModes)
                  (chooseSwapExtent p.capabilities p w).1
                  (requestedImageCount p.capabilities) graphicsFamily presentFamily)
                  (chooseSwapExtent p.capabilities p w).2.nextHandle))).take
                (p.swapchainImageCount (swapchainCreateInfo p surfaceFormat
                  (chooseSwapPresentMode p.presentModes)
                  (chooseSwapExtent p.capabilities p w).1
                  (requestedImageCount p.capabilities) graphicsFamily
                  presentFamily).minImageCount)) with
          | error e => simp [bind, Except.bind, hviews] at h
          | ok r3 =>
            have f3 := createImageViews_frame p s2 _ r3.1 r3.2 hviews
            cases hcolor : createColorResources p r3.1 r3.2 with
            | error e => simp [bind, Except.bind, hviews, hcolor] at h
            | ok r4 =>
              have f4 := createColorResources_frame p r3.1 r3.2 r4.1 r4.2 hcolor
              simp only [bind, Except.bind, hviews, hcolor] at h
              have f5 := createDepthResources_frame p r4.1 r4.2 s1 w1 h
              have e5 : s1.swapChainImages = s2.swapChainImages ∧
                  s1.swapChainImageViews = r3.1.swapChainImageViews ∧
                  s1.swapChainFramebuffers = s2.swapChainFramebuffers ∧
                  s1.swapChainImageFormat = s2.swapChainImageFormat ∧
                  s1.swapChainExtent = s2.swapChainExtent ∧
                  s1.msaaSamples = s2.msaaSamples := by
                rw [f5, f4, f3.2]
                exact ⟨rfl, rfl, rfl, rfl, rfl, rfl⟩
              rw [e5.1, e5.2.1, e5.2.2.1, e5.2.2.2.1, e5.2.2.2.2.1, e5.2.2.2.2.2, f3.1, hlen,
                ← hs2]
              exact ⟨rfl, rfl, rfl, ⟨surfaceFormat, rfl, rfl⟩, rfl, rfl⟩
        · simp [hformat, hg, hp, hres] at h

/-- The members that `createFramebuffers` and its loop leave alone. -/
theorem createFramebuffersFrom_frame (renderPass : Nat) (p : Platform) :
    ∀ (remaining i : Nat) (s : SwapChain) (w : World) (s1 : SwapChain) (w1 : World),
      createFramebuffersFrom renderPass p remaining i s w = .ok (s1, w1) →
      s1.swapChainFramebuffers.length = s.swapChainFramebuffers.length ∧
      s1 = { s with swapChainFramebuffers := s1.swapChainFramebuffers } := by
  intro remaining
  induction remaining with
  | zero =>
    intro i s w s1 w1 h
    simp only [createFramebuffersFrom, Except.ok.injEq, Prod.mk.injEq] at h
    rw [← h.1]
    exact ⟨rfl, rfl⟩
  | succ n ih =>
    intro i s w s1 w1 h
    rw [createFramebuffersFrom] at h
    cases hcolor : s.colorImage with
    | none => simp [hcolor] at h
    | some colorImage =>
      cases hdepth : s.depthImage with
      | none => simp [hcolor, hdepth] at h
      | some depthImage =>
        by_cases hres : p.vkResult w.nextHandle = VK_SUCCESS
        · simp only [hcolor, hdepth, hres, ne_eq, not_true_eq_false, if_false] at h
          have h2 := ih _ _ _ _ _ h
          rw [List.length_set] at h2
          refine ⟨h2.1, ?_⟩
          rw [h2.2]
        · simp [hcolor, hdepth, hres] at h

theorem createFramebuffers_frame (renderPass : Nat) (p : Platform) (s : SwapChain)
    (w : World) (s1 : SwapChain) (w1 : World)
    (h : createFramebuffers renderPass p s w = .ok (s1, w1)) :
    s1.swapChainFramebuffers.length = s.swapChainImageViews.length ∧
    s1 = { s with swapChainFramebuffers := s1.swapChainFramebuffers } := by
  unfold createFramebuffers at h
  have h2 := createFramebuffersFrom_frame renderPass p _ _ _ _ _ _ h
  rw [length_resize] at h2
  refine ⟨h2.1, ?_⟩
  rw [h2.2]

/-- A successful `recreateSwapChain` is a successful `createSwapChain`
followed by a successful `createFramebuffers`. -/
theorem recreateSwapChain_steps (fuel : Nat) (p : Platform) (renderPass : Nat)
    (s : SwapChain) (w : World) (s1 : SwapChain) (w1 : World)
    (h : recreateSwapChain fuel p renderPass s w = some (.ok (s1, w1))) :
    ∃ w3 s2 w4, createSwapChain p s w3 = .ok (s2, w4) ∧
      createFramebuffers renderPass p s2 w4 = .ok (s1, w1) := by
  unfold recreateSwapChain at h
  cases hwait : waitForWindow p fuel (glfwGetFramebufferSize p w).1
      (glfwGetFramebufferSize p w).2 with
  | mk w2 left =>
    cases left with
    | false => simp [hwait] at h
    | true =>
      simp only [hwait, Option.some.injEq] at h
      cases hclean : cleanupSwapChain s (w2.emit VkCall.vkDeviceWaitIdle) with
      | error e => simp [bind, Except.bind, hclean] at h
      | ok w3 =>
        cases hcreate : createSwapChain p s w3 with
        | error e => simp [bind, Except.bind, hclean, hcreate] at h
        | ok r =>
          simp only [bind, Except.bind, hclean, hcreate] at h
          exact ⟨w3, r.1, r.2, hcreate, h⟩

/-- C7 as amended: in every state reachable through the constructor,
`createFramebuffers` and `recreateSwapChain`, `swapChainImages` and
`swapChainImageViews` have the length of the negotiated image count;
`swapChainFramebuffers` has that length too once `createFramebuffers` or
`recreateSwapChain` has run, and is empty in the state the constructor
leaves. -/
theorem reachable_lengths (n : Nat) (built : Bool) (s : SwapChain)
    (h : Reachable n built s) :
    s.swapChainImages.length = n ∧ s.swapChainImageViews.length = n ∧
    (built = true → s.swapChainFramebuffers.length = n) ∧
    (built = false → s.swapChainFramebuffers = []) := by
  induction h with
  | construct p w s w1 hc =>
    have f := createSwapChain_frame p fresh w s w1 hc
    exact ⟨f.1, f.2.1, fun hb => Bool.noConfusion hb, fun _ => f.2.2.1⟩
  | createFramebuffers n b renderPass p s w s1 w1 _ hc ih =>
    have f := createFramebuffers_frame renderPass p s w s1 w1 hc
    have e : s1.swapChainImages = s.swapChainImages ∧
        s1.swapChainImageViews = s.swapChainImageViews := by
      rw [f.2]
      exact ⟨rfl, rfl⟩
    rw [e.1, e.2, f.1]
    exact ⟨ih.1, ih.2.1, fun _ => ih.2.1, fun hb => Bool.noConfusion hb⟩
  | recreateSwapChain n b fuel p renderPass s w s1 w1 _ hc _ =>
    obtain ⟨w3, s2, w4, hcreate, hfb⟩ := recreateSwapChain_steps fuel p renderPass s w s1 w1 hc
    have f := createSwapChain_frame p s w3 s2 w4 hcreate
    have g := createFramebuffers_frame renderPass p s2 w4 s1 w1 hfb
    have e : s1.swapChainImages = s2.swapChainImages ∧
        s1.swapChainImageViews = s2.swapChainImageViews := by
      rw [g.2]
      exact ⟨rfl, rfl⟩
    rw [e.1, e.2, g.1]
    exact ⟨f.1, f.2.1, fun _ => f.2.1, fun hb => Bool.noConfusion hb⟩

/-- C7 as amended, on the sample platform: after the constructor and
`createFramebuffers` the three sequences have length 3. -/
theorem reachable_lengths_witness :
    sampleSwapChain.swapChainImages.length = 3 ∧
    sampleSwapChain.swapChainImageViews.length = 3 ∧
    (true = true → sampleSwapChain.swapChainFramebuffers.length = 3) ∧
    (true = false → sampleSwapChain.swapChainFramebuffers = []) :=
  reachable_lengths 3 true sampleSwapChain
    (Reachable.createFramebuffers (negotiatedImageCount samplePlatform) false 77 samplePlatform
      sampleConstructed ⟨14, 1, []⟩ sampleSwapChain _
      (Reachable.construct samplePlatform World.initial sampleConstructed _ rfl) rfl)

/-- C7, refuted on the sample platform: in the state the constructor leaves,
the chain has three images and three views and no framebuffer. -/
theorem constructed_without_framebuffers :
    ∃ s, Reachable 3 false s ∧ s.swapChainImages.length = 3 ∧
      s.swapChainImageViews.length = 3 ∧ s.swapChainFramebuffers.length = 0 ∧
      s.swapChainFramebuffers.length ≠ s.swapChainImages.length :=
  ⟨sampleConstructed, Reachable.construct samplePlatform World.initial sampleConstructed _ rfl,
    by decide, by decide, by decide, by decide⟩

/-! ## Properties of SwapChain.h: recreation -/

theorem createImageView_ok (imageObject format aspectFlags mipLevels : Nat) (p : Platform)
    (w : World) (hres : ∀ k, p.vkResult k = VK_SUCCESS) :
    ImageView.createImageView imageObject format aspectFlags mipLevels p w =
      .ok (w.nextHandle, ⟨w.nextHandle + 1, w.polls, w.calls ++
        [VkCall.vkCreateImageView imageObject format aspectFlags mipLevels w.nextHandle]⟩) := by
  simp [ImageView.createImageView, hres, World.take, World.emit]

theorem createColorResources_ok (p : Platform) (s : SwapChain) (w : World)
    (hp : Cooperative p) :
    createColorResources p s w =
      .ok ({ s with colorImage := some ⟨w.nextHandle, w.nextHandle + 1, w.nextHandle + 2,
          s.swapChainExtent.width, s.swapChainExtent.height, 1, s.msaaSamples,
          s.swapChainImageFormat⟩ },
        ⟨w.nextHandle + 3, w.polls, w.calls ++
          Image.createCalls ⟨w.nextHandle, w.nextHandle + 1, w.nextHandle + 2,
            s.swapChainExtent.width, s.swapChainExtent.height, 1, s.msaaSamples,
            s.swapChainImageFormat⟩ VK_IMAGE_TILING_OPTIMAL
            (VK_IMAGE_USAGE_TRANSIENT_ATTACHMENT_BIT ||| VK_IMAGE_USAGE_COLOR_ATTACHMENT_BIT)
            VK_IMAGE_ASPECT_COLOR_BIT 1⟩) := by
  obtain ⟨hres, _, _, _, _, hmem⟩ := hp
  obtain ⟨i, hi⟩ := hmem w.nextHandle
  simp [createColorResources, Image.create, Image.createImageView, Image.createCalls, hres,
    hi, World.take, World.emit, bind, Except.bind, pure, Except.pure, createImageView_ok]

theorem createDepthResources_ok (p : Platform) (s : SwapChain) (w : World)
    (hp : Cooperative p) (depthFormat : Nat) (hdepth : findDepthFormat p = .ok depthFormat) :
    createDepthResources p s w =
      .ok ({ s with depthImage := some ⟨w.nextHandle, w.nextHandle + 1, w.nextHandle + 2,
          s.swapChainExtent.width, s.swapChainExtent.height, 1, s.msaaSamples, depthFormat⟩ },
        ⟨w.nextHandle + 3, w.polls, w.calls ++
          Image.createCalls ⟨w.nextHandle, w.nextHandle + 1, w.nextHandle + 2,
            s.swapChainExtent.width, s.swapChainExtent.height, 1, s.msaaSamples,
            depthFormat⟩ VK_IMAGE_TILING_OPTIMAL VK_IMAGE_USAGE_DEPTH_STENCIL_ATTACHMENT_BIT
            VK_IMAGE_ASPECT_DEPTH_BIT 1⟩) := by
  obtain ⟨hres, _, _, _, _, hmem⟩ := hp
  obtain ⟨i, hi⟩ := hmem w.nextHandle
  simp [createDepthResources, hdepth, Image.create, Image.createImageView, Image.createCalls,
    hres, hi, World.take, World.emit, bind, Except.bind, pure, Except.pure,
    createImageView_ok]

theorem take_succ_set {α : Type} (l : List α) (i : Nat) (a : α) (h : i < l.length) :
    (l.set i a).take (i + 1) = l.take i ++ [a] := by
  induction l generalizing i with
  | nil => simp at h
  | cons b rest ih =>
    cases i with
    | zero => simp
    | succ j =>
      simp only [List.length_cons, Nat.add_lt_add_iff_right] at h
      simp only [List.set_cons_succ, List.take_succ_cons, List.cons_append, ih j h]

theorem createImageViewsFrom_ok (p : Platform) (hres : ∀ k, p.vkResult k = VK_SUCCESS) :
    ∀ (remaining i : Nat) (s : SwapChain) (w : World),
      i + remaining = s.swapChainImageViews.length →
      s.swapChainImages.length = s.swapChainImageViews.length →
      createImageViewsFrom p remaining i s w =
        .ok ({ s with swapChainImageViews :=
              s.swapChainImageViews.take i ++ List.range' w.nextHandle remaining },
          ⟨w.nextHandle + remaining, w.polls, w.calls ++
            List.zipWith (fun image view => VkCall.vkCreateImageView image
                s.swapChainImageFormat VK_IMAGE_ASPECT_COLOR_BIT 1 view)
              (s.swapChainImages.drop i) (List.range' w.nextHandle remaining)⟩) := by
  intro remaining
  induction remaining with
  | zero =>
    intro i s w hlen _
    have htake : s.swapChainImageViews.take i = s.swapChainImageViews :=
      List.take_of_length_le (by omega)
    simp [createImageViewsFrom, htake]
  | succ n ih =>
    intro i s w hlen himages
    have hi : i < s.swapChainImageViews.length := by omega
    rw [createImageViewsFrom, createImageView_ok _ _ _ _ p w hres]
    simp only [bind, Except.bind]
    rw [ih (i + 1) _ _ (by rw [List.length_set]; omega) (by rw [List.length_set]; exact himages)]
    simp only [take_succ_set _ _ _ hi, List.range'_succ, List.append_assoc,
      List.singleton_append,
      ← getD_cons_drop s.swapChainImages i VK_NULL_HANDLE (by omega), List.zipWith_cons_cons]
    have harith : w.nextHandle + 1 + n = w.nextHandle + (n + 1) := by omega
    rw [harith]

theorem createImageViews_ok (p : Platform) (hres : ∀ k, p.vkResult k = VK_SUCCESS)
    (s : SwapChain) (w : World) :
    createImageViews p s w =
      .ok ({ s with swapChainImageViews := List.range' w.nextHandle s.swapChainImages.length },
        ⟨w.nextHandle + s.swapChainImages.length, w.polls, w.calls ++
          List.zipWith (fun image view => VkCall.vkCreateImageView image
              s.swapChainImageFormat VK_IMAGE_ASPECT_COLOR_BIT 1 view)
            s.swapChainImages (List.range' w.nextHandle s.swapChainImages.length)⟩) := by
  unfold createImageViews
  simp only []
  rw [createImageViewsFrom_ok p hres _ 0 _ w (by simp [length_resize])
    (by simp [length_resize])]
  simp

theorem createFramebuffersFrom_ok (renderPass : Nat) (p : Platform)
    (hres : ∀ k, p.vkResult k = VK_SUCCESS) (color depth : Image) :
    ∀ (remaining i : Nat) (s : SwapChain) (w : World),
      s.colorImage = some color → s.depthImage = some depth →
      i + remaining = s.swapChainFramebuffers.length →
      s.swapChainImageViews.length = s.swapChainFramebuffers.length →
      createFramebuffersFrom renderPass p remaining i s w =
        .ok ({ s with swapChainFramebuffers :=
              s.swapChainFramebuffers.take i ++ List.range' w.nextHandle remaining },
          ⟨w.nextHandle + remaining, w.polls, w.calls ++
            List.zipWith (fun view framebuffer => VkCall.vkCreateFramebuffer renderPass
                [color.imageView, depth.imageView, view] s.swapChainExtent.width
                s.swapChainExtent.height 1 framebuffer)
              (s.swapChainImageViews.drop i) (List.range' w.nextHandle remaining)⟩) := by
  intro remaining
  induction remaining with
  | zero =>
    intro i s w _ _ hlen _
    have htake : s.swapChainFramebuffers.take i = s.swapChainFramebuffers :=
      List.take_of_length_le (by omega)
    simp [createFramebuffersFrom, htake]
  | succ n ih =>
    intro i s w hcolor hdepth hlen hviews
    have hi : i < s.swapChainFramebuffers.length := by omega
    have key := ih (i + 1)
      { s with swapChainFramebuffers := s.swapChainFramebuffers.set i w.nextHandle }
      ((w.take 1).emit (VkCall.vkCreateFramebuffer renderPass
        [color.imageView, depth.imageView, s.swapChainImageViews.getD i VK_NULL_HANDLE]
        s.swapChainExtent.width s.swapChainExtent.height 1 w.nextHandle))
      hcolor hdepth (by simp only [List.length_set]; omega)
      (by simp only [List.length_set]; exact hviews)
    rw [createFramebuffersFrom]
    simp only [hcolor, hdepth, hres, ne_eq, not_true_eq_false, if_false] at key ⊢
    rw [key]
    simp only [take_succ_set _ _ _ hi, List.range'_succ, List.append_assoc,
      List.singleton_append, World.take, World.emit,
      ← getD_cons_drop s.swapChainImageViews i VK_NULL_HANDLE (by omega),
      List.zipWith_cons_cons]
    have harith : w.nextHandle + 1 + n = w.nextHandle + (n + 1) := by omega
    rw [harith]

theorem createFramebuffers_ok (renderPass : Nat) (p : Platform)
    (hres : ∀ k, p.vkResult k = VK_SUCCESS) (color depth : Image) (s : SwapChain) (w : World)
    (hcolor : s.colorImage = some color) (hdepth : s.depthImage = some depth) :
    createFramebuffers renderPass p s w =
      .ok ({ s with swapChainFramebuffers :=
            List.range' w.nextHandle s.swapChainImageViews.length },
        ⟨w.nextHandle + s.swapChainImageViews.length, w.polls, w.calls ++
          List.zipWith (fun view framebuffer => VkCall.vkCreateFramebuffer renderPass
              [color.imageView, depth.imageView, view] s.swapChainExtent.width
              s.swapChainExtent.height 1 framebuffer)
            s.swapChainImageViews (List.range' w.nextHandle s.swapChainImageViews.length)⟩) := by
  unfold createFramebuffers
  simp only []
  have key := createFramebuffersFrom_ok renderPass p hres color depth
    s.swapChainImageViews.length 0
    { s with swapChainFramebuffers := resize s.swapChainFramebuffers s.swapChainImageViews.length VK_NULL_HANDLE }
    w hcolor hdepth (by simp [length_resize]) (by simp [length_resize])
  simp only [] at key ⊢
  rw [key]
  simp

theorem chooseSwapExtent_world (capabilities : VkSurfaceCapabilitiesKHR) (p : Platform)
    (w : World) :
    (chooseSwapExtent capabilities p w).2.nextHandle = w.nextHandle ∧
    (chooseSwapExtent capabilities p w).2.calls = w.calls := by
  unfold chooseSwapExtent glfwGetFramebufferSize
  split_ifs <;> exact ⟨rfl, rfl⟩

/-- On a cooperative platform `createSwapChain` returns normally, and issues
one chain creation, one view creation per image, and the calls that build the
colour and the depth attachment, in this order. -/
theorem createSwapChain_ok (p : Platform) (s : SwapChain) (w : World) (hp : Cooperative p) :
    ∃ s1 w1 createInfo color depth,
      createSwapChain p s w = .ok (s1, w1) ∧
      s1.colorImage = some color ∧ s1.depthImage = some depth ∧
      s1.swapChainImages.length = negotiatedImageCount p ∧
      s1.swapChainImageViews.length = negotiatedImageCount p ∧
      s1.swapChainFramebuffers = s.swapChainFramebuffers ∧
      createInfo.minImageCount = requestedImageCount p.capabilities ∧
      w1.calls = w.calls ++ ([VkCall.vkCreateSwapchainKHR createInfo s1.swapChain] ++
        List.zipWith (fun image view => VkCall.vkCreateImageView image
            s1.swapChainImageFormat VK_IMAGE_ASPECT_COLOR_BIT 1 view)
          s1.swapChainImages s1.swapChainImageViews ++
        color.createCalls VK_IMAGE_TILING_OPTIMAL
          (VK_IMAGE_USAGE_TRANSIENT_ATTACHMENT_BIT ||| VK_IMAGE_USAGE_COLOR_ATTACHMENT_BIT)
          VK_IMAGE_ASPECT_COLOR_BIT 1 ++
        depth.createCalls VK_IMAGE_TILING_OPTIMAL VK_IMAGE_USAGE_DEPTH_STENCIL_ATTACHMENT_BIT
          VK_IMAGE_ASPECT_DEPTH_BIT 1) ∧
      w1.polls = (chooseSwapExtent p.capabilities p w).2.polls := by
  have hp0 := hp
  obtain ⟨hres, hformats, ⟨graphicsFamily, hg⟩, ⟨presentFamily, hpf⟩, ⟨depthFormat, hdepth⟩, _⟩
    := hp
  obtain ⟨surfaceFormat, hformat, _⟩ := chooseSwapSurfaceFormat_some_mem p.formats hformats
  obtain ⟨hnext, hcalls⟩ := chooseSwapExtent_world p.capabilities p w
  unfold createSwapChain
  simp only [hformat, hg, hpf, hres, ne_eq, not_true_eq_false, if_false, bind, Except.bind,
    createImageViews_ok p hres, createColorResources_ok p _ _ hp0,
    createDepthResources_ok p _ _ hp0 depthFormat hdepth]
  refine ⟨_, _, swapchainCreateInfo p surfaceFormat (chooseSwapPresentMode p.presentModes)
    (chooseSwapExtent p.capabilities p w).1 (requestedImageCount p.capabilities)
    graphicsFamily presentFamily, _, _, rfl, rfl, rfl, ?_, ?_, rfl, rfl, ?_, rfl⟩
  · simp only [length_overwrite, length_resize]
    rfl
  · simp only [List.length_range', length_overwrite, length_resize]
    rfl
  · simp only [World.take, World.emit, hcalls, List.append_assoc, length_overwrite,
      length_resize]

theorem minimised_iff (size : Int × Int) :
    (size.1 == 0 || size.2 == 0) = true ↔ Minimised size := by
  unfold Minimised
  rw [Bool.or_eq_true, beq_iff_eq, beq_iff_eq]

/-- The wait loop issues no device call and hands out no handle, however long
it runs. -/
theorem waitForWindow_calls (p : Platform) :
    ∀ (fuel : Nat) (size : Int × Int) (w : World),
      (waitForWindow p fuel size w).1.calls = w.calls ∧
      (waitForWindow p fuel size w).1.nextHandle = w.nextHandle := by
  intro fuel
  induction fuel with
  | zero =>
    intro size w
    exact ⟨rfl, rfl⟩
  | succ n ih =>
    intro size w
    unfold waitForWindow
    by_cases hz : (size.1 == 0 || size.2 == 0) = true
    · rw [if_pos hz]
      exact ih _ _
    · rw [if_neg hz]
      exact ⟨rfl, rfl⟩

/-- The wait loop is left at the first poll that reports a size without a
zero component, when the fuel reaches that far. -/
theorem waitForWindow_leaves (p : Platform) :
    ∀ (k fuel q nextHandle : Nat) (calls : List VkCall), k ≤ fuel →
      (∀ j, j < k → Minimised (p.framebufferSize (q + j))) →
      ¬ Minimised (p.framebufferSize (q + k)) →
      waitForWindow p fuel (p.framebufferSize q) ⟨nextHandle, q + 1, calls⟩ =
        (⟨nextHandle, q + 1 + k, calls⟩, true) := by
  intro k
  induction k with
  | zero =>
    intro fuel q nextHandle calls _ _ hnon
    have hz : ¬ (((p.framebufferSize q).1 == 0 || (p.framebufferSize q).2 == 0) = true) :=
      fun h => hnon ((minimised_iff _).mp h)
    cases fuel with
    | zero =>
      unfold waitForWindow
      simp only [Bool.not_eq_true] at hz
      rw [hz]
      rfl
    | succ f =>
      unfold waitForWindow
      rw [if_neg hz]
  | succ n ih =>
    intro fuel q nextHandle calls hfuel hzero hnon
    have hz : ((p.framebufferSize q).1 == 0 || (p.framebufferSize q).2 == 0) = true :=
      (minimised_iff _).mpr (hzero 0 (Nat.succ_pos n))
    cases fuel with
    | zero => omega
    | succ f =>
      unfold waitForWindow
      rw [if_pos hz]
      simp only [glfwGetFramebufferSize]
      rw [ih f (q + 1) nextHandle calls (by omega)
        (fun j hj => by
          have := hzero (j + 1) (by omega)
          rwa [show q + (j + 1) = q + 1 + j by omega] at this)
        (by rwa [show q + (n + 1) = q + 1 + n by omega] at hnon)]
      rw [show q + 1 + 1 + n = q + 1 + (n + 1) by omega]

/-- While every poll so far has reported a zero width or height the wait loop
is still running: after `n` iterations it has polled `n` more times, issued no
device call and not been left. -/
theorem waitForWindow_waiting (p : Platform) :
    ∀ (n k q nextHandle : Nat) (calls : List VkCall), n < k →
      (∀ j, j < k → Minimised (p.framebufferSize (q + j))) →
      waitForWindow p n (p.framebufferSize q) ⟨nextHandle, q + 1, calls⟩ =
        (⟨nextHandle, q + 1 + n, calls⟩, false) := by
  intro n
  induction n with
  | zero =>
    intro k q nextHandle calls hk hzero
    have hz : ((p.framebufferSize q).1 == 0 || (p.framebufferSize q).2 == 0) = true :=
      (minimised_iff _).mpr (hzero 0 hk)
    unfold waitForWindow
    rw [hz]
    rfl
  | succ m ih =>
    intro k q nextHandle calls hk hzero
    have hz : ((p.framebufferSize q).1 == 0 || (p.framebufferSize q).2 == 0) = true :=
      (minimised_iff _).mpr (hzero 0 (by omega))
    unfold waitForWindow
    rw [if_pos hz]
    simp only [glfwGetFramebufferSize]
    rw [ih (k - 1) (q + 1) nextHandle calls (by omega)
      (fun j hj => by
        have := hzero (j + 1) (by omega)
        rwa [show q + (j + 1) = q + 1 + j by omega] at this)]
    rw [show q + 1 + 1 + m = q + 1 + (m + 1) by omega]

theorem chooseSwapExtent_polls (capabilities : VkSurfaceCapabilitiesKHR) (p : Platform)
    (w : World) :
    (chooseSwapExtent capabilities p w).2.polls =
      w.polls + (if capabilities.currentExtent.width ≠ UINT32_MAX then 0 else 1) := by
  unfold chooseSwapExtent glfwGetFramebufferSize
  split_ifs <;> rfl

theorem samplePlatform_cooperative : Cooperative samplePlatform :=
  ⟨fun _ => rfl, by decide, ⟨0, rfl⟩, ⟨0, rfl⟩, ⟨VK_FORMAT_D32_SFLOAT_S8_UINT, rfl⟩,
    fun _ => ⟨1, by
      show Buffer.findMemoryType 3 1 ⟨2, [⟨2, 0⟩, ⟨1, 0⟩]⟩ = .ok 1
      rfl⟩⟩

/-- C10: let poll number `k` of the call be the first to report a non-zero
width and height.  The wait loop of `recreateSwapChain` issues no device
call, however long it runs; after any `n < k` iterations it is still
running, having polled `n + 1` times and issued no call, and
`recreateSwapChain` has not gone on; with `k` iterations or more it is left
after exactly `k + 1` polls.  On a platform where no call throws
`recreateSwapChain` then returns normally having issued exactly:
`vkDeviceWaitIdle`, then the calls of `cleanupSwapChain` on the old members,
then those of `createSwapChain` (one chain creation, one view per image, the
colour and the depth attachment), then one `vkCreateFramebuffer` per view;
the three sequences have the negotiated length, and the only further poll is
the one of `chooseSwapExtent`. -/
theorem recreateSwapChain_protocol (fuel k renderPass : Nat) (p : Platform) (s : SwapChain)
    (w : World) (color depth : Image) (hp : Cooperative p)
    (hcolor : s.colorImage = some color) (hdepth : s.depthImage = some depth)
    (hzero : ∀ j, j < k → Minimised (p.framebufferSize (w.polls + j)))
    (hnonzero : ¬ Minimised (p.framebufferSize (w.polls + k)))
    (hfuel : k ≤ fuel) :
    (∀ n, (waitForWindow p n (glfwGetFramebufferSize p w).1
      (glfwGetFramebufferSize p w).2).1.calls = w.calls) ∧
    (∀ n, n < k →
      waitForWindow p n (glfwGetFramebufferSize p w).1 (glfwGetFramebufferSize p w).2 =
        (⟨w.nextHandle, w.polls + 1 + n, w.calls⟩, false) ∧
      recreateSwapChain n p renderPass s w = none) ∧
    waitForWindow p fuel (glfwGetFramebufferSize p w).1 (glfwGetFramebufferSize p w).2 =
      (⟨w.nextHandle, w.polls + 1 + k, w.calls⟩, true) ∧
    ∃ s1 w1 createInfo color1 depth1,
      recreateSwapChain fuel p renderPass s w = some (.ok (s1, w1)) ∧
      s1.colorImage = some color1 ∧ s1.depthImage = some depth1 ∧
      s1.swapChainImages.length = negotiatedImageCount p ∧
      s1.swapChainImageViews.length = negotiatedImageCount p ∧
      s1.swapChainFramebuffers.length = negotiatedImageCount p ∧
      createInfo.minImageCount = requestedImageCount p.capabilities ∧
      w1.calls = w.calls ++ ([VkCall.vkDeviceWaitIdle] ++
        (color.destroyCalls ++ depth.destroyCalls ++
          s.swapChainFramebuffers.map VkCall.vkDestroyFramebuffer ++
          s.swapChainImageViews.map VkCall.vkDestroyImageView ++
          [VkCall.vkDestroySwapchainKHR s.swapChain]) ++
        ([VkCall.vkCreateSwapchainKHR createInfo s1.swapChain] ++
          List.zipWith (fun image view => VkCall.vkCreateImageView image
              s1.swapChainImageFormat VK_IMAGE_ASPECT_COLOR_BIT 1 view)
            s1.swapChainImages s1.swapChainImageViews ++
          color1.createCalls VK_IMAGE_TILING_OPTIMAL
            (VK_IMAGE_USAGE_TRANSIENT_ATTACHMENT_BIT ||| VK_IMAGE_USAGE_COLOR_ATTACHMENT_BIT)
            VK_IMAGE_ASPECT_COLOR_BIT 1 ++
          depth1.createCalls VK_IMAGE_TILING_OPTIMAL
            VK_IMAGE_USAGE_DEPTH_STENCIL_ATTACHMENT_BIT VK_IMAGE_ASPECT_DEPTH_BIT 1) ++
        List.zipWith (fun view framebuffer => VkCall.vkCreateFramebuffer renderPass
            [color1.imageView, depth1.imageView, view] s1.swapChainExtent.width
            s1.swapChainExtent.height 1 framebuffer)
          s1.swapChainImageViews s1.swapChainFramebuffers) ∧
      w1.polls = w.polls + 1 + k +
        (if p.capabilities.currentExtent.width ≠ UINT32_MAX then 0 else 1) := by
  have hwait := waitForWindow_leaves p k fuel w.polls w.nextHandle w.calls hfuel hzero hnonzero
  refine ⟨fun n => (waitForWindow_calls p n _ _).1, fun n hn => ?_, hwait, ?_⟩
  · have hstill := waitForWindow_waiting p n k w.polls w.nextHandle w.calls hn hzero
    refine ⟨hstill, ?_⟩
    unfold recreateSwapChain
    simp only [glfwGetFramebufferSize, hstill]
  · obtain ⟨s2, w2, createInfo, color1, depth1, hcreate, hc1, hd1, hlen1, hlen2, _, hinfo,
      hcalls, hpolls⟩ := createSwapChain_ok p s
        ⟨w.nextHandle, w.polls + 1 + k, (w.calls ++ [VkCall.vkDeviceWaitIdle]) ++
          (color.destroyCalls ++ depth.destroyCalls ++
            s.swapChainFramebuffers.map VkCall.vkDestroyFramebuffer ++
            s.swapChainImageViews.map VkCall.vkDestroyImageView ++
            [VkCall.vkDestroySwapchainKHR s.swapChain])⟩ hp
    have hfb := createFramebuffers_ok renderPass p hp.1 color1 depth1 s2 w2 hc1 hd1
    have hrange := List.length_range' w2.nextHandle 1 s2.swapChainImageViews.length
    generalize List.range' w2.nextHandle s2.swapChainImageViews.length = framebuffers
      at hfb hrange
    refine ⟨{ s2 with swapChainFramebuffers := framebuffers },
      ⟨w2.nextHandle + s2.swapChainImageViews.length, w2.polls, w2.calls ++
        List.zipWith (fun view framebuffer => VkCall.vkCreateFramebuffer renderPass
            [color1.imageView, depth1.imageView, view] s2.swapChainExtent.width
            s2.swapChainExtent.height 1 framebuffer)
          s2.swapChainImageViews framebuffers⟩,
      createInfo, color1, depth1, ?_, hc1, hd1, hlen1, hlen2, ?_, hinfo, ?_, ?_⟩
    · unfold recreateSwapChain
      simp only [glfwGetFramebufferSize, hwait, World.emit,
        cleanupSwapChain_eq s _ color depth hcolor hdepth, bind, Except.bind, hcreate, hfb]
    · rw [← hlen2]
      exact hrange
    · simp only [hcalls, List.append_assoc]
    · simp only [hpolls, chooseSwapExtent_polls]

/-- C10 on the sample platform, the window being minimised at the first two
polls of the call: after one iteration of the wait loop the call has not gone
on, two iterations are enough, and the chain is rebuilt with three
framebuffers after four polls in all. -/
theorem recreateSwapChain_protocol_witness :
    recreateSwapChain 1 samplePlatform 77 sampleSwapChain ⟨17, 2, []⟩ = none ∧
    ∃ s1 w1, recreateSwapChain 2 samplePlatform 77 sampleSwapChain ⟨17, 2, []⟩
        = some (.ok (s1, w1)) ∧
      s1.swapChainImages.length = 3 ∧ s1.swapChainImageViews.length = 3 ∧
      s1.swapChainFramebuffers.length = 3 ∧ w1.polls = 6 :=
  have h := recreateSwapChain_protocol 2 2 77 samplePlatform sampleSwapChain ⟨17, 2, []⟩
    ⟨8, 9, 10, 1920, 1080, 1, 4, 44⟩ ⟨11, 12, 13, 1920, 1080, 1, 4, 130⟩
    samplePlatform_cooperative rfl rfl
    (fun j hj => by
      have hj2 : j = 0 ∨ j = 1 := by omega
      rcases hj2 with h | h <;> subst h <;> unfold Minimised <;> decide)
    (by unfold Minimised; decide) (le_refl 2)
  ⟨(h.2.1 1 (by decide)).2, h.2.2.2.imp fun _ h => h.imp fun _ h =>
    let ⟨_, _, _, h1, _, _, h4, h5, h6, _, _, h9⟩ := h
    ⟨h1, h4, h5, h6, h9⟩⟩

/-! ## Properties of SwapChain.h: recreating twice -/

/-- On a cooperative platform `recreateSwapChain` returns normally as soon as
the fuel reaches the first poll that reports a non-zero size, and leaves both
attachments in place. -/
theorem recreateSwapChain_returns (fuel k renderPass : Nat) (p : Platform) (s : SwapChain)
    (w : World) (color depth : Image) (hp : Cooperative p)
    (hcolor : s.colorImage = some color) (hdepth : s.depthImage = some depth)
    (hzero : ∀ j, j < k → Minimised (p.framebufferSize (w.polls + j)))
    (hnonzero : ¬ Minimised (p.framebufferSize (w.polls + k)))
    (hfuel : k ≤ fuel) :
    ∃ s1 w1 color1 depth1,
      recreateSwapChain fuel p renderPass s w = some (.ok (s1, w1)) ∧
      s1.colorImage = some color1 ∧ s1.depthImage = some depth1 := by
  have hwait := waitForWindow_leaves p k fuel w.polls w.nextHandle w.calls hfuel hzero hnonzero
  obtain ⟨s2, w2, _, color1, depth1, hcreate, hc1, hd1, _⟩ := createSwapChain_ok p s
    ⟨w.nextHandle, w.polls + 1 + k, (w.calls ++ [VkCall.vkDeviceWaitIdle]) ++
      (color.destroyCalls ++ depth.destroyCalls ++
        s.swapChainFramebuffers.map VkCall.vkDestroyFramebuffer ++
        s.swapChainImageViews.map VkCall.vkDestroyImageView ++
        [VkCall.vkDestroySwapchainKHR s.swapChain])⟩ hp
  have hfb := createFramebuffers_ok renderPass p hp.1 color1 depth1 s2 w2 hc1 hd1
  generalize List.range' w2.nextHandle s2.swapChainImageViews.length = framebuffers at hfb
  refine ⟨{ s2 with swapChainFramebuffers := framebuffers },
    ⟨w2.nextHandle + s2.swapChainImageViews.length, w2.polls, w2.calls ++
      List.zipWith (fun view framebuffer => VkCall.vkCreateFramebuffer renderPass
          [color1.imageView, depth1.imageView, view] s2.swapChainExtent.width
          s2.swapChainExtent.height 1 framebuffer)
        s2.swapChainImageViews framebuffers⟩, color1, depth1, ?_, ?_, ?_⟩
  · unfold recreateSwapChain
    simp only [glfwGetFramebufferSize, hwait, World.emit,
      cleanupSwapChain_eq s _ color depth hcolor hdepth, bind, Except.bind, hcreate, hfb]
  · exact hc1
  · exact hd1

/-- What a successful `recreateSwapChain` leaves in the members: the
negotiated image count, the format chosen from the supported formats, and the
extent chosen in the world in which the chain was created. -/
theorem recreateSwapChain_frame (fuel : Nat) (p : Platform) (renderPass : Nat)
    (s : SwapChain) (w : World) (s1 : SwapChain) (w1 : World)
    (h : recreateSwapChain fuel p renderPass s w = some (.ok (s1, w1))) :
    s1.swapChainImages.length = negotiatedImageCount p ∧
    (∃ surfaceFormat, chooseSwapSurfaceFormat p.formats = some surfaceFormat ∧
      s1.swapChainImageFormat = surfaceFormat.format) ∧
    ∃ w3, s1.swapChainExtent = (chooseSwapExtent p.capabilities p w3).1 := by
  obtain ⟨w3, s2, w4, hcreate, hfb⟩ := recreateSwapChain_steps fuel p renderPass s w s1 w1 h
  have f := createSwapChain_frame p s w3 s2 w4 hcreate
  have g := createFramebuffers_frame renderPass p s2 w4 s1 w1 hfb
  have e : s1.swapChainImages = s2.swapChainImages ∧
      s1.swapChainImageFormat = s2.swapChainImageFormat ∧
      s1.swapChainExtent = s2.swapChainExtent := by
    rw [g.2]
    exact ⟨rfl, rfl, rfl⟩
  rw [e.1, e.2.1, e.2.2]
  exact ⟨f.1, f.2.2.2.1, w3, f.2.2.2.2.1⟩

/-- With a window that reports the same size at every poll, the chosen extent
does not depend on the world. -/
theorem chooseSwapExtent_stable (capabilities : VkSurfaceCapabilitiesKHR) (p : Platform)
    (size : Int × Int) (hstable : ∀ k, p.framebufferSize k = size) (w w1 : World) :
    (chooseSwapExtent capabilities p w).1 = (chooseSwapExtent capabilities p w1).1 := by
  unfold chooseSwapExtent glfwGetFramebufferSize
  split_ifs
  · rfl
  · simp only [hstable]

/-- C11: on a platform where no call throws and whose window reports the same
non-zero size at every poll, `recreateSwapChain` returns normally, a second
`recreateSwapChain` on the same platform in the world the first one left
returns normally too, and the image count, `swapChainImageFormat` and
`swapChainExtent` after the second call are those after the first. -/
theorem recreateSwapChain_twice_same (fuel1 fuel2 renderPass : Nat) (p : Platform)
    (s : SwapChain) (w : World) (color depth : Image) (size : Int × Int)
    (hp : Cooperative p)
    (hcolor : s.colorImage = some color) (hdepth : s.depthImage = some depth)
    (hstable : ∀ k, p.framebufferSize k = size) (hnonzero : ¬ Minimised size) :
    ∃ s1 w1 s2 w2,
      recreateSwapChain fuel1 p renderPass s w = some (.ok (s1, w1)) ∧
      recreateSwapChain fuel2 p renderPass s1 w1 = some (.ok (s2, w2)) ∧
      s2.swapChainImages.length = s1.swapChainImages.length ∧
      s2.swapChainImageFormat = s1.swapChainImageFormat ∧
      s2.swapChainExtent = s1.swapChainExtent := by
  have hnon : ∀ q, ¬ Minimised (p.framebufferSize (q + 0)) := fun q => by
    rw [hstable]
    exact hnonzero
  obtain ⟨s1, w1, color1, depth1, h1, hc1, hd1⟩ :=
    recreateSwapChain_returns fuel1 0 renderPass p s w color depth hp hcolor hdepth
      (fun j hj => absurd hj (Nat.not_lt_zero j)) (hnon w.polls) (Nat.zero_le _)
  obtain ⟨s2, w2, _, _, h2, _, _⟩ :=
    recreateSwapChain_returns fuel2 0 renderPass p s1 w1 color1 depth1 hp hc1 hd1
      (fun j hj => absurd hj (Nat.not_lt_zero j)) (hnon w1.polls) (Nat.zero_le _)
  obtain ⟨hn1, ⟨format1, hf1, hformat1⟩, wa, hextent1⟩ :=
    recreateSwapChain_frame fuel1 p renderPass s w s1 w1 h1
  obtain ⟨hn2, ⟨format2, hf2, hformat2⟩, wb, hextent2⟩ :=
    recreateSwapChain_frame fuel2 p renderPass s1 w1 s2 w2 h2
  refine ⟨s1, w1, s2, w2, h1, h2, ?_, ?_, ?_⟩
  · rw [hn1, hn2]
  · rw [hf1] at hf2
    injection hf2 with hf
    rw [hformat1, hformat2, hf]
  · rw [hextent1, hextent2]
    exact chooseSwapExtent_stable p.capabilities p size hstable wb wa

theorem stablePlatform_cooperative : Cooperative stablePlatform :=
  ⟨fun _ => rfl, by decide, ⟨0, rfl⟩, ⟨0, rfl⟩, ⟨VK_FORMAT_D32_SFLOAT_S8_UINT, rfl⟩,
    fun _ => ⟨1, by
      show Buffer.findMemoryType 3 1 ⟨2, [⟨2, 0⟩, ⟨1, 0⟩]⟩ = .ok 1
      rfl⟩⟩

/-- C11 on the sample platform with a window that stays at 1920 by 1080:
both calls return and leave the same image count, format and extent. -/
theorem recreateSwapChain_twice_same_witness :
    ∃ s1 w1 s2 w2,
      recreateSwapChain 0 stablePlatform 77 sampleSwapChain ⟨17, 1, []⟩
        = some (.ok (s1, w1)) ∧
      recreateSwapChain 0 stablePlatform 77 s1 w1 = some (.ok (s2, w2)) ∧
      s2.swapChainImages.length = s1.swapChainImages.length ∧
      s2.swapChainImageFormat = s1.swapChainImageFormat ∧
      s2.swapChainExtent = s1.swapChainExtent :=
  recreateSwapChain_twice_same 0 0 77 stablePlatform sampleSwapChain ⟨17, 1, []⟩
    ⟨8, 9, 10, 1920, 1080, 1, 4, 44⟩ ⟨11, 12, 13, 1920, 1080, 1, 4, 130⟩ (1920, 1080)
    stablePlatform_cooperative rfl rfl (fun _ => rfl) (by unfold Minimised; decide)

end SwapChain

/-! ## Properties of Texture.h -/

namespace Texture

theorem computeMipLevels_eq (texWidth texHeight : Int)
    (hw : texWidth < 2147483648) (hh : texHeight < 2147483648) :
    computeMipLevels texWidth texHeight = Nat.log 2 (max texWidth texHeight).toNat + 1 := by
  unfold computeMipLevels floorLog2 UINT32_SIZE
  rw [Nat.log2_eq_log_two]
  have hlt : (max texWidth texHeight).toNat < 2 ^ 31 := by
    have : max texWidth texHeight < 2147483648 := max_lt hw hh
    omega
  have hlog : Nat.log 2 (max texWidth texHeight).toNat < 31 := by
    by_cases h0 : (max texWidth texHeight).toNat = 0
    · rw [h0, Nat.log_zero_right]
      norm_num
    · exact Nat.log_lt_of_lt_pow h0 hlt
  omega

/-- C12: for a decoded image of width and height at least 1 (both `int`s) the
constructor sets `mipLevels` to `floor(log2(max(w, h))) + 1`, which is the
unique `L` with `2 ^ (L - 1) ≤ max(w, h) < 2 ^ L`, and it returns normally
having passed that value to the image creation, to the layout transition
from Undefined to TransferDst, to `generateMipMaps` and to `createImageView`;
no call of the constructor carries another mip count. -/
theorem mipLevels_floor_log2 (texWidth texHeight : Int)
    (hw : 1 ≤ texWidth ∧ texWidth < 2147483648)
    (hh : 1 ≤ texHeight ∧ texHeight < 2147483648) :
    computeMipLevels texWidth texHeight = Nat.log 2 (max texWidth texHeight).toNat + 1 ∧
    (2 : Int) ^ (computeMipLevels texWidth texHeight - 1) ≤ max texWidth texHeight ∧
    max texWidth texHeight < (2 : Int) ^ computeMipLevels texWidth texHeight ∧
    (∀ L : Nat, (2 : Int) ^ (L - 1) ≤ max texWidth texHeight →
      max texWidth texHeight < (2 : Int) ^ L → L = computeMipLevels texWidth texHeight) ∧
    ∃ texture calls, construct texWidth texHeight true = .ok (texture, calls) ∧
      texture.mipLevels = computeMipLevels texWidth texHeight ∧
      TextureCall.makeImage texWidth texHeight (computeMipLevels texWidth texHeight)
        VK_SAMPLE_COUNT_1_BIT VK_FORMAT_R8G8B8A8_SRGB VK_IMAGE_TILING_OPTIMAL
        (VK_IMAGE_USAGE_TRANSFER_SRC_BIT ||| VK_IMAGE_USAGE_TRANSFER_DST_BIT |||
          VK_IMAGE_USAGE_SAMPLED_BIT) VK_MEMORY_PROPERTY_DEVICE_LOCAL_BIT ∈ calls ∧
      TextureCall.transitionImageLayout VK_FORMAT_R8G8B8A8_SRGB VK_IMAGE_LAYOUT_UNDEFINED
        VK_IMAGE_LAYOUT_TRANSFER_DST_OPTIMAL (computeMipLevels texWidth texHeight) ∈ calls ∧
      TextureCall.generateMipMaps VK_FORMAT_R8G8B8A8_SRGB texWidth texHeight
        (computeMipLevels texWidth texHeight) ∈ calls ∧
      TextureCall.createImageView VK_IMAGE_ASPECT_COLOR_BIT
        (computeMipLevels texWidth texHeight) ∈ calls ∧
      ∀ c ∈ calls, ∀ m, mipCount c = some m → m = computeMipLevels texWidth texHeight := by
  have heq := computeMipLevels_eq texWidth texHeight hw.2 hh.2
  have hpos : 1 ≤ max texWidth texHeight := le_trans hw.1 (le_max_left _ _)
  obtain ⟨n, hn⟩ : ∃ n : Nat, max texWidth texHeight = (n : Int) :=
    ⟨(max texWidth texHeight).toNat, (Int.toNat_of_nonneg (by omega)).symm⟩
  have hn0 : n ≠ 0 := by
    intro h0
    rw [hn, h0] at hpos
    omega
  rw [hn] at heq ⊢
  simp only [Int.toNat_ofNat] at heq
  have hlow : 2 ^ Nat.log 2 n ≤ n := Nat.pow_log_le_self 2 hn0
  have hhigh : n < 2 ^ (Nat.log 2 n + 1) := Nat.lt_pow_succ_log_self (by norm_num) n
  refine ⟨by simpa using heq, ?_, ?_, ?_, ?_⟩
  · rw [heq, Nat.add_sub_cancel]
    exact_mod_cast hlow
  · rw [heq]
    exact_mod_cast hhigh
  · intro L h1 h2
    have h1n : 2 ^ (L - 1) ≤ n := by exact_mod_cast h1
    have h2n : n < 2 ^ L := by exact_mod_cast h2
    have hL : L ≠ 0 := by
      intro h0
      rw [h0] at h2n
      simp at h2n
      exact hn0 h2n
    have hlog : Nat.log 2 n = L - 1 :=
      Nat.log_eq_of_pow_le_of_lt_pow h1n (by rwa [Nat.sub_add_cancel (Nat.pos_of_ne_zero hL)])
    rw [heq, hlog]
    omega
  · refine ⟨_, _, rfl, rfl, ?_, ?_, ?_, ?_, ?_⟩
    · simp
    · simp
    · simp
    · simp
    · intro c hc m hm
      simp only [List.mem_cons, List.mem_singleton, List.not_mem_nil, or_false] at hc
      rcases hc with h | h | h | h | h | h | h | h | h | h | h <;> subst h <;>
        simp [mipCount] at hm <;> exact hm.symm

/-- C12 for a 256 by 256 image: `mipLevels` is 9. -/
theorem mipLevels_floor_log2_witness :
    computeMipLevels 256 256 = 9 ∧
    ∃ texture calls, construct 256 256 true = .ok (texture, calls) ∧ texture.mipLevels = 9 :=
  have h := mipLevels_floor_log2 256 256 (by decide) (by decide)
  have h9 : computeMipLevels 256 256 = 9 := (h.2.2.2.1 9 (by decide) (by decide)).symm
  ⟨h9, h.2.2.2.2.imp fun _ t => t.imp fun _ c => ⟨c.1, c.2.1.trans h9⟩⟩

end Texture

/-! ## Properties of Model.h -/

namespace Model

theorem firstOccurrences_sublist {K : Type} (eq : K → K → Bool) (l : List K) :
    List.Sublist (firstOccurrences eq l) l := by
  induction l with
  | nil => exact List.Sublist.slnil
  | cons v rest ih =>
    unfold firstOccurrences
    exact List.Sublist.cons₂ v ((List.filter_sublist _).trans ih)

theorem firstOccurrences_pairwise {K : Type} (eq : K → K → Bool) (l : List K) :
    List.Pairwise (fun a b => eq a b = false) (firstOccurrences eq l) := by
  induction l with
  | nil => exact List.Pairwise.nil
  | cons v rest ih =>
    unfold firstOccurrences
    refine List.Pairwise.cons ?_ (ih.filter _)
    intro u hu
    have := (List.mem_filter.mp hu).2
    simpa using this

theorem firstOccurrences_snoc {K : Type} (eq : K → K → Bool)
    (htrans : ∀ a b c, eq a b = true → eq b c = true → eq a c = true) (v : K) (l : List K) :
    firstOccurrences eq (l ++ [v]) =
      if (firstOccurrences eq l).any (fun u => eq u v) then firstOccurrences eq l
      else firstOccurrences eq l ++ [v] := by
  induction l with
  | nil => simp [firstOccurrences]
  | cons a rest ih =>
    rw [List.cons_append, firstOccurrences, ih, firstOccurrences]
    by_cases hany : (firstOccurrences eq rest).any (fun u => eq u v) = true
    · rw [if_pos hany]
      have hany2 : (a :: (firstOccurrences eq rest).filter (fun u => !eq a u)).any
          (fun u => eq u v) = true := by
        obtain ⟨r, hr, hrv⟩ := List.any_eq_true.mp hany
        by_cases har : eq a r = true
        · exact List.any_eq_true.mpr ⟨a, List.mem_cons_self _ _, htrans a r v har hrv⟩
        · refine List.any_eq_true.mpr ⟨r, List.mem_cons_of_mem _ (List.mem_filter.mpr ⟨hr, ?_⟩),
            hrv⟩
          simpa using har
      rw [if_pos hany2]
    · rw [if_neg hany]
      by_cases hav : eq a v = true
      · have hany2 : (a :: (firstOccurrences eq rest).filter (fun u => !eq a u)).any
            (fun u => eq u v) = true :=
          List.any_eq_true.mpr ⟨a, List.mem_cons_self _ _, hav⟩
        rw [if_pos hany2, List.filter_append]
        simp [hav]
      · have hany2 : ¬ (a :: (firstOccurrences eq rest).filter (fun u => !eq a u)).any
            (fun u => eq u v) = true := by
          intro h
          obtain ⟨r, hr, hrv⟩ := List.any_eq_true.mp h
          rcases List.mem_cons.mp hr with hra | hrf
          · exact hav (hra ▸ hrv)
          · exact hany (List.any_eq_true.mpr ⟨r, (List.mem_filter.mp hrf).1, hrv⟩)
        rw [if_neg hany2, List.filter_append]
        simp [hav]

theorem firstOccurrences_length_le_append {K : Type} (eq : K → K → Bool)
    (htrans : ∀ a b c, eq a b = true → eq b c = true → eq a c = true) (l l1 : List K) :
    (firstOccurrences eq l).length ≤ (firstOccurrences eq (l ++ l1)).length := by
  induction l1 using List.reverseRecOn with
  | nil => simp
  | append_singleton l2 x ih =>
    rw [← List.append_assoc, firstOccurrences_snoc eq htrans]
    split_ifs
    · exact ih
    · rw [List.length_append, List.length_singleton]
      omega

theorem zip_range_snoc {K : Type} (l : List K) (v : K) :
    (l ++ [v]).zip (List.range (l ++ [v]).length) =
      l.zip (List.range l.length) ++ [(v, l.length)] := by
  rw [List.length_append, List.length_singleton, List.range_succ,
    List.zip_append (by simp)]
  rfl

theorem getElem?_of_mem_zip_range {K : Type} (l : List K) (e : K × Nat)
    (h : e ∈ l.zip (List.range l.length)) : l[e.2]? = some e.1 := by
  induction l using List.reverseRecOn with
  | nil => simp at h
  | append_singleton l v ih =>
    rw [zip_range_snoc, List.mem_append, List.mem_singleton] at h
    rcases h with h | h
    · have h2 := ih h
      have hlt : e.2 < l.length := by
        by_contra hge
        rw [List.getElem?_eq_none (by omega)] at h2
        cases h2
      rw [List.getElem?_append_left hlt]
      exact h2
    · rw [h]
      simp

theorem exists_mem_zip_range {K : Type} (l : List K) (u : K) (h : u ∈ l) :
    ∃ e, e ∈ l.zip (List.range l.length) ∧ e.1 = u := by
  have hmap : (l.zip (List.range l.length)).map Prod.fst = l :=
    List.map_fst_zip _ _ (by simp)
  rw [← hmap, List.mem_map] at h
  exact h

theorem loadVertex_of_absent {F : Type} (eq : Vertex F → Vertex F → Bool)
    (hrefl : ∀ a, eq a a = true) (st : State F) (vertex : Vertex F)
    (hfind : st.uniqueVertices.find? (fun e => eq e.1 vertex) = none) :
    loadVertex eq st vertex =
      { uniqueVertices := st.uniqueVertices ++ [(vertex, st.vertices.length % UINT32_SIZE)]
        vertices := st.vertices ++ [vertex]
        indices := st.indices ++ [st.vertices.length % UINT32_SIZE] } := by
  simp [loadVertex, mapCount, mapAssign, mapRead, hfind, List.find?_append, hrefl]

theorem loadVertex_of_present {F : Type} (eq : Vertex F → Vertex F → Bool) (st : State F)
    (vertex : Vertex F) (e : Vertex F × Nat)
    (hfind : st.uniqueVertices.find? (fun e => eq e.1 vertex) = some e) :
    loadVertex eq st vertex =
      { uniqueVertices := st.uniqueVertices
        vertices := st.vertices
        indices := st.indices ++ [e.2] } := by
  simp [loadVertex, mapCount, mapRead, hfind]

/-- One iteration of the loading loop keeps the state loaded. -/
theorem loadVertex_loaded {F : Type} (eq : Vertex F → Vertex F → Bool)
    (hrefl : ∀ a, eq a a = true)
    (htrans : ∀ a b c, eq a b = true → eq b c = true → eq a c = true)
    (st : State F) (processed : List (Vertex F)) (vertex : Vertex F)
    (h : Loaded eq st processed)
    (hlen : (firstOccurrences eq (processed ++ [vertex])).length ≤ UINT32_SIZE) :
    Loaded eq (loadVertex eq st vertex) (processed ++ [vertex]) := by
  obtain ⟨hm, hV, hI⟩ := h
  cases hfind : st.uniqueVertices.find? (fun e => eq e.1 vertex) with
  | none =>
    have hnone : ∀ u ∈ st.vertices, ¬ eq u vertex = true := by
      intro u hu
      obtain ⟨e, he, heu⟩ := exists_mem_zip_range st.vertices u hu
      rw [← hm] at he
      have := List.find?_eq_none.mp hfind e he
      rw [← heu]
      simpa using this
    have hany : ¬ (firstOccurrences eq processed).any (fun u => eq u vertex) = true := by
      intro hc
      obtain ⟨u, hu, huv⟩ := List.any_eq_true.mp hc
      rw [← hV] at hu
      exact hnone u hu huv
    have hlt : st.vertices.length < UINT32_SIZE := by
      rw [firstOccurrences_snoc eq htrans, if_neg hany, List.length_append,
        List.length_singleton, ← hV] at hlen
      omega
    rw [loadVertex_of_absent eq hrefl st vertex hfind, Nat.mod_eq_of_lt hlt]
    refine ⟨?_, ?_, ?_⟩
    · simp only [zip_range_snoc, hm]
    · simp only [firstOccurrences_snoc eq htrans, if_neg hany, hV]
    · refine List.rel_append (hI.imp ?_) (List.Forall₂.cons ?_ List.Forall₂.nil)
      · rintro i v ⟨u, hu, huv⟩
        refine ⟨u, ?_, huv⟩
        have hi : i < st.vertices.length := by
          by_contra hge
          rw [List.getElem?_eq_none (by omega)] at hu
          cases hu
        simp only [List.getElem?_append_left hi, hu]
      · exact ⟨vertex, by simp, hrefl _⟩
  | some e =>
    rw [loadVertex_of_present eq st vertex e hfind]
    have hmem : e ∈ st.vertices.zip (List.range st.vertices.length) := by
      rw [← hm]
      exact List.mem_of_find?_eq_some hfind
    have hget := getElem?_of_mem_zip_range st.vertices e hmem
    have heq : eq e.1 vertex = true := by
      have := List.find?_some hfind
      simpa using this
    have hany : (firstOccurrences eq processed).any (fun u => eq u vertex) = true := by
      rw [← hV]
      exact List.any_eq_true.mpr ⟨e.1, List.getElem?_mem hget, heq⟩
    refine ⟨hm, ?_, ?_⟩
    · simp only [firstOccurrences_snoc eq htrans, if_pos hany, hV]
    · exact List.rel_append hI (List.Forall₂.cons ⟨e.1, hget, heq⟩ List.Forall₂.nil)

theorem exists_related_of_mem {α β : Type} (R : α → β → Prop) (l₁ : List α) (l₂ : List β)
    (h : List.Forall₂ R l₁ l₂) : ∀ a ∈ l₁, ∃ b, b ∈ l₂ ∧ R a b := by
  induction h with
  | nil =>
    intro a ha
    cases ha
  | cons hab _ ih =>
    intro a ha
    rcases List.mem_cons.mp ha with ha | ha
    · rw [ha]
      exact ⟨_, List.mem_cons_self _ _, hab⟩
    · obtain ⟨b, hb, hr⟩ := ih a ha
      exact ⟨b, List.mem_cons_of_mem _ hb, hr⟩

/-- The loading loop over a list of built vertices keeps the state loaded. -/
theorem foldl_loadVertex_loaded {F : Type} (eq : Vertex F → Vertex F → Bool)
    (hrefl : ∀ a, eq a a = true)
    (htrans : ∀ a b c, eq a b = true → eq b c = true → eq a c = true) :
    ∀ (built : List (Vertex F)) (st : State F) (processed : List (Vertex F)),
      Loaded eq st processed →
      (firstOccurrences eq (processed ++ built)).length ≤ UINT32_SIZE →
      Loaded eq (built.foldl (loadVertex eq) st) (processed ++ built) := by
  intro built
  induction built with
  | nil =>
    intro st processed h _
    simpa using h
  | cons vertex rest ih =>
    intro st processed h hlen
    have hsplit : processed ++ vertex :: rest = (processed ++ [vertex]) ++ rest := by
      simp
    rw [hsplit] at hlen ⊢
    have hstep := loadVertex_loaded eq hrefl htrans st processed vertex h
      (le_trans (firstOccurrences_length_le_append eq htrans _ _) hlen)
    exact ih _ _ hstep hlen

/-- The inner loop returns exactly when every entry of the shape builds a
vertex, and then it is the loading loop over the built vertices. -/
theorem loadShape_eq_foldl {F : Type} [One F] [Sub F] (eq : Vertex F → Vertex F → Bool)
    (attrib : tinyobj.attrib_t F) :
    ∀ (shape : List tinyobj.index_t) (st : State F),
      (∀ e ∈ shape, ∃ v, buildVertex attrib e = some v) →
      loadShape eq attrib st shape =
        some ((builtVertices attrib shape).foldl (loadVertex eq) st) := by
  intro shape
  induction shape with
  | nil =>
    intro st _
    rfl
  | cons index rest ih =>
    intro st hvalid
    obtain ⟨v, hv⟩ := hvalid index (List.mem_cons_self _ _)
    have hrest := ih (loadVertex eq st v) (fun e he => hvalid e (List.mem_cons_of_mem _ he))
    simp only [loadShape, loadIndex, hv, hrest, builtVertices, List.filterMap_cons,
      List.foldl_cons]

theorem builtVertices_append {F : Type} [One F] [Sub F] (attrib : tinyobj.attrib_t F)
    (l1 l2 : List tinyobj.index_t) :
    builtVertices attrib (l1 ++ l2) = builtVertices attrib l1 ++ builtVertices attrib l2 := by
  simp [builtVertices, List.filterMap_append]

/-- The two loops return when every entry builds a vertex, and then they are
the loading loop over the vertices built from all entries in order. -/
theorem loadShapesFrom_eq_foldl {F : Type} [One F] [Sub F] (eq : Vertex F → Vertex F → Bool)
    (attrib : tinyobj.attrib_t F) :
    ∀ (shapes : List (List tinyobj.index_t)) (st : State F),
      (∀ e ∈ shapes.flatten, ∃ v, buildVertex attrib e = some v) →
      loadShapesFrom eq attrib st shapes =
        some ((builtVertices attrib shapes.flatten).foldl (loadVertex eq) st) := by
  intro shapes
  induction shapes with
  | nil =>
    intro st _
    rfl
  | cons shape rest ih =>
    intro st hvalid
    have h1 := loadShape_eq_foldl eq attrib shape st
      (fun e he => hvalid e (by rw [List.flatten_cons]; exact List.mem_append_left _ he))
    have h2 := ih ((builtVertices attrib shape).foldl (loadVertex eq) st)
      (fun e he => hvalid e (by rw [List.flatten_cons]; exact List.mem_append_right _ he))
    simp only [loadShapesFrom, h1, h2, List.flatten_cons, builtVertices_append,
      List.foldl_append]

theorem forall₂_filterMap {α β γ : Type} (f : β → Option γ) (R : α → γ → Prop) :
    ∀ (l : List β) (I : List α), (∀ e ∈ l, ∃ v, f e = some v) →
      List.Forall₂ R I (l.filterMap f) →
      List.Forall₂ (fun i e => ∃ v, f e = some v ∧ R i v) I l := by
  intro l
  induction l with
  | nil =>
    intro I _ h
    simpa using h
  | cons e rest ih =>
    intro I hvalid h
    obtain ⟨v, hv⟩ := hvalid e (List.mem_cons_self _ _)
    rw [List.filterMap_cons, hv] at h
    cases h with
    | cons hiv hrest =>
      exact List.Forall₂.cons ⟨v, hv, hiv⟩
        (ih _ (fun e he => hvalid e (List.mem_cons_of_mem _ he)) hrest)

theorem length_filterMap_of_forall {β γ : Type} (f : β → Option γ) :
    ∀ (l : List β), (∀ e ∈ l, ∃ v, f e = some v) → (l.filterMap f).length = l.length := by
  intro l
  induction l with
  | nil =>
    intro _
    rfl
  | cons e rest ih =>
    intro hvalid
    obtain ⟨v, hv⟩ := hvalid e (List.mem_cons_self _ _)
    rw [List.filterMap_cons, hv, List.length_cons, List.length_cons,
      ih (fun e he => hvalid e (List.mem_cons_of_mem _ he))]

/-- C13 as amended: when `operator==` of `Vertex` is an equivalence, every
index entry builds a vertex (its reads are inside the attribute arrays and
its `int` arithmetic does not overflow) and the entries build at most `2 ^ 32`
distinct vertices, then the loading loop returns, and after it (1) `indices`
has one entry per index entry; (2) every index is below `vertices.size()`;
(3) entry by entry, in input order, `indices[k]` points at a stored vertex
equal to the vertex built from the `k`-th index entry; and (4) no two stored
vertices are equal, and `vertices` lists the distinct built vertices in order
of first occurrence. -/
theorem loadShapes_deduplicates {F : Type} [One F] [Sub F]
    (eq : Vertex F → Vertex F → Bool) (hrefl : ∀ a, eq a a = true)
    (hsymm : ∀ a b, eq a b = true → eq b a = true)
    (htrans : ∀ a b c, eq a b = true → eq b c = true → eq a c = true)
    (attrib : tinyobj.attrib_t F) (shapes : List (List tinyobj.index_t))
    (hvalid : ∀ e ∈ shapes.flatten, (buildVertex attrib e).isSome = true)
    (hsize : (firstOccurrences eq (builtVertices attrib shapes.flatten)).length
      ≤ UINT32_SIZE) :
    ∃ st, loadShapes eq attrib shapes = some st ∧
      st.indices.length = shapes.flatten.length ∧
      (∀ i ∈ st.indices, i < st.vertices.length) ∧
      List.Forall₂ (fun i index => ∃ v, buildVertex attrib index = some v ∧
          ∃ u, st.vertices[i]? = some u ∧ eq u v = true)
        st.indices shapes.flatten ∧
      List.Pairwise (fun a b => eq a b = false ∧ eq b a = false) st.vertices ∧
      st.vertices = firstOccurrences eq (builtVertices attrib shapes.flatten) ∧
      List.Sublist st.vertices (builtVertices attrib shapes.flatten) := by
  have hinit : Loaded eq (⟨[], [], []⟩ : State F) [] :=
    ⟨rfl, rfl, List.Forall₂.nil⟩
  have hbuilt : ∀ e ∈ shapes.flatten, ∃ v, buildVertex attrib e = some v :=
    fun e he => Option.isSome_iff_exists.mp (hvalid e he)
  have h := foldl_loadVertex_loaded eq hrefl htrans (builtVertices attrib shapes.flatten)
    _ [] hinit (by rw [List.nil_append]; exact hsize)
  rw [List.nil_append] at h
  obtain ⟨_, hV, hI⟩ := h
  have hI2 := forall₂_filterMap (buildVertex attrib) _ shapes.flatten _ hbuilt hI
  refine ⟨_, loadShapesFrom_eq_foldl eq attrib shapes _ hbuilt, hI2.length_eq, ?_, hI2, ?_,
    hV, ?_⟩
  · intro i hi
    obtain ⟨index, _, v, _, u, hu, _⟩ := exists_related_of_mem _ _ _ hI2 i hi
    by_contra hge
    rw [List.getElem?_eq_none (by omega)] at hu
    cases hu
  · rw [hV]
    refine (firstOccurrences_pairwise eq _).imp ?_
    intro a b hab
    refine ⟨hab, ?_⟩
    cases hba : eq b a with
    | false => rfl
    | true => rw [hsymm b a hba] at hab; cases hab
  · rw [hV]
    exact firstOccurrences_sublist eq _

/-- C13 as amended, on a small mesh of five index entries with integer
coordinates and structural equality: the loop returns, three vertices are
stored and the indices are 0, 1, 0, 2, 1. -/
theorem loadShapes_deduplicates_witness :
    (∀ e ∈ sampleShapes.flatten, (buildVertex sampleAttrib e).isSome = true) ∧
    (firstOccurrences (fun a b => decide (a = b))
      (builtVertices sampleAttrib sampleShapes.flatten)).length ≤ UINT32_SIZE ∧
    (loadShapes (fun a b => decide (a = b)) sampleAttrib sampleShapes).map
      (fun st => (st.indices, st.vertices.length)) = some ([0, 1, 0, 2, 1], 3) ∧
    ∃ st, loadShapes (fun a b => decide (a = b)) sampleAttrib sampleShapes = some st ∧
      st.indices.length = sampleShapes.flatten.length ∧
      (∀ i ∈ st.indices, i < st.vertices.length) ∧
      List.Forall₂ (fun i index => ∃ v, buildVertex sampleAttrib index = some v ∧
          ∃ u, st.vertices[i]? = some u ∧ decide (u = v) = true)
        st.indices sampleShapes.flatten ∧
      List.Pairwise (fun a b => decide (a = b) = false ∧ decide (b = a) = false) st.vertices ∧
      st.vertices = firstOccurrences (fun a b => decide (a = b))
        (builtVertices sampleAttrib sampleShapes.flatten) ∧
      List.Sublist st.vertices (builtVertices sampleAttrib sampleShapes.flatten) :=
  ⟨by decide, by decide, by decide,
    loadShapes_deduplicates (fun a b => decide (a = b))
      (fun a => decide_eq_true rfl)
      (fun a b h => decide_eq_true (of_decide_eq_true h).symm)
      (fun a b c h1 h2 => decide_eq_true ((of_decide_eq_true h1).trans (of_decide_eq_true h2)))
      sampleAttrib sampleShapes (by decide) (by decide)⟩

theorem getElem?_map_range {α : Type} (f : Nat → α) (n i : Nat) (h : i < n) :
    ((List.range n).map f)[i]? = some (f i) := by
  rw [List.getElem?_map, List.getElem?_range h]
  rfl

/-- A read at `stride * index + offset` that stays inside `int` and inside
the array is defined. -/
theorem component_of_getElem? {F : Type} (a : List F) (stride index offset : Nat) (x : F)
    (hindex : index ≤ 2147483647) (hbound : stride * index + offset ≤ 2147483647)
    (hget : a[stride * index + offset]? = some x) :
    component a (stride : Int) (index : Int) (offset : Int) = some x := by
  have hle : stride * index ≤ stride * index + offset := Nat.le_add_right _ _
  have hprod : ((stride : Int) * (index : Int)) = ((stride * index : Nat) : Int) := by
    push_cast
    rfl
  have hsum : ((stride : Int) * (index : Int) + (offset : Int)) =
      ((stride * index + offset : Nat) : Int) := by
    push_cast
    rfl
  have h1 : isInt (index : Int) = true := by
    simp only [isInt, INT_MIN, INT_MAX, Bool.and_eq_true, decide_eq_true_eq]
    omega
  have h2 : isInt ((stride : Int) * (index : Int)) = true := by
    rw [hprod]
    simp only [isInt, INT_MIN, INT_MAX, Bool.and_eq_true, decide_eq_true_eq]
    omega
  have h3 : isInt ((stride : Int) * (index : Int) + (offset : Int)) = true := by
    rw [hsum]
    simp only [isInt, INT_MIN, INT_MAX, Bool.and_eq_true, decide_eq_true_eq]
    omega
  have hnonneg : ¬ (((stride * index + offset : Nat) : Int) < 0) := by omega
  simp only [component, intIndex, h1, h2, h3, Bool.and_self, if_true]
  rw [hsum]
  simp only [readAt, hnonneg, if_false, Int.toNat_ofNat, hget]

theorem gridAttrib_vertices (m : Nat) :
    (gridAttrib m).vertices = (List.range (3 * m)).map Int.ofNat := rfl

theorem gridAttrib_normals (m : Nat) : (gridAttrib m).normals = [0, 0, 1] := rfl

theorem gridAttrib_texcoords (m : Nat) :
    (gridAttrib m).texcoords = (List.range (2 * m)).map
      (fun j => if j % 2 = 0 then ((j / 2 : Nat) : Int) else 0) := rfl

/-- An entry that names position `q` and texture coordinate `r` of the grid
arrays builds the vertex with the coordinates stored there. -/
theorem buildVertex_grid (m q r : Nat) (hbound : 3 * m ≤ 2147483647) (hq : q < m)
    (hr : r < m) :
    buildVertex (gridAttrib m) ⟨(q : Int), 0, (r : Int)⟩ =
      some { pos := (((3 * q : Nat) : Int), ((3 * q + 1 : Nat) : Int), ((3 * q + 2 : Nat) : Int))
             normal := (0, 0, 1)
             texCoord := ((r : Int), 1 - 0)
             color := (1, 1, 1) } := by
  have hx := component_of_getElem? (gridAttrib m).vertices 3 q 0
    (Int.ofNat (3 * q + 0)) (by omega) (by omega)
    (getElem?_map_range Int.ofNat (3 * m) (3 * q + 0) (by omega))
  have hy := component_of_getElem? (gridAttrib m).vertices 3 q 1
    (Int.ofNat (3 * q + 1)) (by omega) (by omega)
    (getElem?_map_range Int.ofNat (3 * m) (3 * q + 1) (by omega))
  have hz := component_of_getElem? (gridAttrib m).vertices 3 q 2
    (Int.ofNat (3 * q + 2)) (by omega) (by omega)
    (getElem?_map_range Int.ofNat (3 * m) (3 * q + 2) (by omega))
  have hnx := component_of_getElem? (gridAttrib m).normals 3 0 0 0 (by omega) (by omega) rfl
  have hny := component_of_getElem? (gridAttrib m).normals 3 0 1 0 (by omega) (by omega) rfl
  have hnz := component_of_getElem? (gridAttrib m).normals 3 0 2 1 (by omega) (by omega) rfl
  have hu := component_of_getElem? (gridAttrib m).texcoords 2 r 0
    ((r : Nat) : Int) (by omega) (by omega)
    (by
      rw [show (gridAttrib m).texcoords = (List.range (2 * m)).map
        (fun j => if j % 2 = 0 then ((j / 2 : Nat) : Int) else 0) from rfl,
        getElem?_map_range _ (2 * m) (2 * r + 0) (by omega)]
      have h0 : (2 * r + 0) % 2 = 0 := by omega
      have h1 : (2 * r + 0) / 2 = r := by omega
      simp only [h0, h1, if_true])
  have hv := component_of_getElem? (gridAttrib m).texcoords 2 r 1
    (0 : Int) (by omega) (by omega)
    (by
      rw [show (gridAttrib m).texcoords = (List.range (2 * m)).map
        (fun j => if j % 2 = 0 then ((j / 2 : Nat) : Int) else 0) from rfl,
        getElem?_map_range _ (2 * m) (2 * r + 1) (by omega)]
      have h0 : ¬ (2 * r + 1) % 2 = 0 := by omega
      simp only [h0, if_false])
  simp only [Nat.cast_ofNat, Nat.cast_zero, Nat.cast_one] at hx hy hz hnx hny hnz hu hv
  simp only [buildVertex, hx, hy, hz, hnx, hny, hnz, hu, hv, bind, Option.bind, pure]
  rfl

/-- Entry number `k` of the grid mesh builds the vertex `gridVertex m k`. -/
theorem buildVertex_gridIndex (m k : Nat) (hbound : 3 * m ≤ 2147483647) (hk : k / m < m) :
    buildVertex (gridAttrib m) (gridIndex m k) = some (gridVertex m k) :=
  buildVertex_grid m (k / m) (k % m) hbound hk
    (Nat.mod_lt k (lt_of_le_of_lt (Nat.zero_le _) hk))

theorem gridVertex_ne (m i j : Nat) (hij : i ≠ j) :
    gridVertex m i ≠ gridVertex m j := by
  intro h
  have hpos : (((3 * (i / m) : Nat) : Int)) = ((3 * (j / m) : Nat) : Int) :=
    congrArg (fun v => v.pos.1) h
  have htex : ((i % m : Nat) : Int) = ((j % m : Nat) : Int) :=
    congrArg (fun v => v.texCoord.1) h
  have hq : i / m = j / m := by
    have := Int.ofNat.inj hpos
    omega
  have hr : i % m = j % m := Int.ofNat.inj htex
  apply hij
  rw [← Nat.div_add_mod i m, ← Nat.div_add_mod j m, hq, hr]

/-- The loading loop on vertices different from each other and from the
stored ones: every vertex is stored and gets its position reduced modulo
`2 ^ 32` as index. -/
theorem foldl_loadVertex_distinct {F : Type} (eq : Vertex F → Vertex F → Bool)
    (hrefl : ∀ a, eq a a = true) :
    ∀ (built : List (Vertex F)) (st : State F),
      st.uniqueVertices.map Prod.fst = st.vertices →
      (∀ u ∈ st.vertices, ∀ v ∈ built, eq u v = false) →
      List.Pairwise (fun a b => eq a b = false) built →
      (built.foldl (loadVertex eq) st).vertices = st.vertices ++ built ∧
      (built.foldl (loadVertex eq) st).indices =
        st.indices ++ (List.range built.length).map
          (fun k => (st.vertices.length + k) % UINT32_SIZE) := by
  intro built
  induction built with
  | nil =>
    intro st _ _ _
    simp
  | cons v rest ih =>
    intro st hkeys hnew hpair
    have hfind : st.uniqueVertices.find? (fun x => eq x.1 v) = none := by
      rw [List.find?_eq_none]
      intro x hx
      have hmem : x.1 ∈ st.vertices := by
        rw [← hkeys]
        exact List.mem_map_of_mem _ hx
      simp [hnew x.1 hmem v (List.mem_cons_self _ _)]
    rw [List.pairwise_cons] at hpair
    rw [List.foldl_cons, loadVertex_of_absent eq hrefl st v hfind]
    have hih := ih
      { uniqueVertices := st.uniqueVertices ++ [(v, st.vertices.length % UINT32_SIZE)]
        vertices := st.vertices ++ [v]
        indices := st.indices ++ [st.vertices.length % UINT32_SIZE] }
      (by simp [hkeys])
      (by
        intro u hu v1 hv1
        rcases List.mem_append.mp hu with hu | hu
        · exact hnew u hu v1 (List.mem_cons_of_mem _ hv1)
        · rw [List.mem_singleton] at hu
          rw [hu]
          exact hpair.1 _ hv1)
      hpair.2
    rw [hih.1, hih.2]
    constructor
    · simp
    · have hshift : (List.range rest.length).map
            (fun k => (st.vertices.length + 1 + k) % UINT32_SIZE) =
          ((List.range rest.length).map Nat.succ).map
            (fun k => (st.vertices.length + k) % UINT32_SIZE) := by
        rw [List.map_map]
        apply List.map_congr_left
        intro k _
        show (st.vertices.length + 1 + k) % UINT32_SIZE =
          (st.vertices.length + (k + 1)) % UINT32_SIZE
        rw [Nat.add_assoc, Nat.add_comm 1 k]
      rw [List.length_cons, List.range_succ_eq_map, List.map_cons, Nat.add_zero,
        List.length_append, List.length_singleton, hshift, List.append_assoc,
        List.singleton_append]

theorem filterMap_eq_map_of_forall {β γ : Type} (f : β → Option γ) (g : β → γ) :
    ∀ (l : List β), (∀ e ∈ l, f e = some (g e)) → l.filterMap f = l.map g := by
  intro l
  induction l with
  | nil =>
    intro _
    rfl
  | cons e rest ih =>
    intro h
    rw [List.filterMap_cons, h e (List.mem_cons_self _ _), List.map_cons,
      ih (fun e he => h e (List.mem_cons_of_mem _ he))]

/-- The loading loop on the first `n` entries of the grid mesh over `m`
positions and texture coordinates: it returns, entry `k` stores the vertex
`gridVertex m k`, and its index is `k` reduced modulo `2 ^ 32`. -/
theorem loadShapes_gridShape (m n : Nat) (hbound : 3 * m ≤ 2147483647) (hn : n ≤ m * m) :
    ∃ st, loadShapes (fun a b => decide (a = b)) (gridAttrib m) [gridShape m n] = some st ∧
      st.vertices = (List.range n).map (gridVertex m) ∧
      st.indices = (List.range n).map (fun k => k % UINT32_SIZE) := by
  have hquot : ∀ k, k < n → k / m < m := by
    intro k hk
    have hkm : k < m * m := lt_of_lt_of_le hk hn
    have hm : 0 < m := by
      rcases Nat.eq_zero_or_pos m with h | h
      · rw [h] at hkm
        simp at hkm
      · exact h
    exact (Nat.div_lt_iff_lt_mul hm).mpr hkm
  have hbuild : ∀ e ∈ gridShape m n, ∃ v, buildVertex (gridAttrib m) e = some v := by
    intro e he
    obtain ⟨k, hk, hke⟩ := List.mem_map.mp he
    rw [← hke]
    exact ⟨_, buildVertex_gridIndex m k hbound (hquot k (List.mem_range.mp hk))⟩
  have hbuilt : builtVertices (gridAttrib m) (gridShape m n) =
      (List.range n).map (gridVertex m) := by
    rw [builtVertices, gridShape, List.filterMap_map]
    apply filterMap_eq_map_of_forall
    intro k hk
    exact buildVertex_gridIndex m k hbound (hquot k (List.mem_range.mp hk))
  have hpair : List.Pairwise (fun a b => decide (a = b) = false)
      ((List.range n).map (gridVertex m)) := by
    rw [List.pairwise_map]
    refine List.Pairwise.imp_of_mem ?_ (List.nodup_range n)
    intro i j _ _ hij
    exact decide_eq_false (gridVertex_ne m i j hij)
  have hfold := foldl_loadVertex_distinct (fun a b => decide (a = b))
    (fun a => decide_eq_true rfl) ((List.range n).map (gridVertex m)) ⟨[], [], []⟩ rfl
    (fun u hu => absurd hu (List.not_mem_nil u)) hpair
  have hload := loadShapesFrom_eq_foldl (fun a b => decide (a = b)) (gridAttrib m)
    [gridShape m n] ⟨[], [], []⟩ (by simpa using hbuild)
  have hflat : [gridShape m n].flatten = gridShape m n := by simp
  rw [hflat, hbuilt] at hload
  refine ⟨_, hload, ?_, ?_⟩
  · rw [hfold.1]
    rfl
  · rw [hfold.2, List.length_map, List.length_range, List.nil_append]
    apply List.map_congr_left
    intro k _
    show (([] : List (Vertex Int)).length + k) % UINT32_SIZE = k % UINT32_SIZE
    rw [List.length_nil, Nat.zero_add]

/-- C13, refuted on a mesh of one shape with `2 ^ 32 + 1` index entries that
pair 65537 positions with 65537 texture coordinates, so that every entry is a
triple of `int` values at most 65536, every read is inside its array and all
coordinates are integers below `2 ^ 24`.  The entries build different
vertices.  The loop returns; entry number `2 ^ 32`, which is `⟨65535, 0, 1⟩`,
gets index 0, and vertex 0 is the one built from entry 0, which differs from
the one built from that entry. -/
theorem loadShapes_index_wraps :
    (gridShape 65537 4294967297).length = 4294967297 ∧
    (∀ e ∈ gridShape 65537 4294967297, 0 ≤ e.vertex_index ∧ e.vertex_index ≤ 65536 ∧
      e.normal_index = 0 ∧ 0 ≤ e.texcoord_index ∧ e.texcoord_index ≤ 65536) ∧
    (gridAttrib 65537).vertices.length = 196611 ∧
    (gridAttrib 65537).texcoords.length = 131074 ∧
    (∀ x ∈ (gridAttrib 65537).vertices ++ (gridAttrib 65537).normals ++
      (gridAttrib 65537).texcoords, 0 ≤ x ∧ x < 16777216) ∧
    (gridShape 65537 4294967297)[0]? = some ⟨0, 0, 0⟩ ∧
    (gridShape 65537 4294967297)[4294967296]? = some ⟨65535, 0, 1⟩ ∧
    buildVertex (gridAttrib 65537) ⟨0, 0, 0⟩ =
      some ⟨(0, 1, 2), (0, 0, 1), (0, 1), (1, 1, 1)⟩ ∧
    buildVertex (gridAttrib 65537) ⟨65535, 0, 1⟩ =
      some ⟨(196605, 196606, 196607), (0, 0, 1), (1, 1), (1, 1, 1)⟩ ∧
    ∃ st, loadShapes (fun a b => decide (a = b)) (gridAttrib 65537)
        [gridShape 65537 4294967297] = some st ∧
      st.indices.length = 4294967297 ∧
      st.vertices.length = 4294967297 ∧
      st.indices[4294967296]? = some 0 ∧
      st.vertices[0]? = some ⟨(0, 1, 2), (0, 0, 1), (0, 1), (1, 1, 1)⟩ ∧
      (⟨(0, 1, 2), (0, 0, 1), (0, 1), (1, 1, 1)⟩ : Vertex Int) ≠
        ⟨(196605, 196606, 196607), (0, 0, 1), (1, 1), (1, 1, 1)⟩ := by
  refine ⟨?_, ?_, ?_, ?_, ?_, ?_, ?_, ?_, ?_, ?_⟩
  · rw [gridShape, List.length_map, List.length_range]
  · intro e he
    obtain ⟨k, hk, hke⟩ := List.mem_map.mp he
    have hlt := List.mem_range.mp hk
    rw [← hke]
    show 0 ≤ ((k / 65537 : Nat) : Int) ∧ ((k / 65537 : Nat) : Int) ≤ 65536 ∧ (0 : Int) = 0 ∧
      0 ≤ ((k % 65537 : Nat) : Int) ∧ ((k % 65537 : Nat) : Int) ≤ 65536
    omega
  · rw [gridAttrib_vertices, List.length_map, List.length_range]
  · rw [gridAttrib_texcoords, List.length_map, List.length_range]
  · intro x hx
    rw [gridAttrib_vertices, gridAttrib_normals, gridAttrib_texcoords] at hx
    rcases List.mem_append.mp hx with hx | hx
    · rcases List.mem_append.mp hx with hx | hx
      · obtain ⟨j, hj, hjx⟩ := List.mem_map.mp hx
        have hlt := List.mem_range.mp hj
        rw [← hjx]
        show 0 ≤ ((j : Nat) : Int) ∧ ((j : Nat) : Int) < 16777216
        omega
      · simp only [List.mem_cons, List.mem_singleton, List.not_mem_nil, or_false] at hx
        omega
    · obtain ⟨j, hj, hjx⟩ := List.mem_map.mp hx
      have hlt := List.mem_range.mp hj
      rw [← hjx]
      show 0 ≤ (if j % 2 = 0 then ((j / 2 : Nat) : Int) else 0) ∧
        (if j % 2 = 0 then ((j / 2 : Nat) : Int) else 0) < 16777216
      split_ifs <;> omega
  · rw [gridShape, getElem?_map_range _ 4294967297 0 (by omega)]
    rfl
  · rw [gridShape, getElem?_map_range _ 4294967297 4294967296 (by omega)]
    rfl
  · exact buildVertex_grid 65537 0 0 (by omega) (by omega) (by omega)
  · exact buildVertex_grid 65537 65535 1 (by omega) (by omega) (by omega)
  · obtain ⟨st, hst, hV, hI⟩ := loadShapes_gridShape 65537 4294967297 (by omega) (by omega)
    refine ⟨st, hst, ?_, ?_, ?_, ?_, by decide⟩
    · rw [hI, List.length_map, List.length_range]
    · rw [hV, List.length_map, List.length_range]
    · rw [hI, getElem?_map_range _ 4294967297 4294967296 (by omega)]
      rfl
    · rw [hV, getElem?_map_range _ 4294967297 0 (by omega)]
      rfl

end Model

end VulkanRenderer
